import Mathlib

/-!
Verification development for the browser-based HTML to Composable JSON
converter (src/scripts/json-html-converter.js).

The JavaScript source is shallowly embedded: DOM elements become an
inductive tree carrying tag name, attributes, a computed-style snapshot and
child nodes; the browser capabilities the code consumes (computed styles,
the offscreen user-agent baseline) are passed in as explicit data; code
that can throw is modelled in the Except monad.  JS strings are Lean
strings, JS string routines (trim, split, replace with the concrete
regexes appearing in the source) are spelled out on lists of characters.
-/

/-! ## JS string primitives -/

/-- Whitespace as matched by JS `trim` and the regex class `\s`
(restricted to the ASCII whitespace characters that can occur in the
inputs handled here). -/
def isJsWhitespace (c : Char) : Bool :=
  c = ' ' || c = '\t' || c = '\n' || c = '\r' || c = '\x0b' || c = '\x0c'

/-- JS `String.prototype.trim` on a character list. -/
def trimL (l : List Char) : List Char :=
  ((l.dropWhile isJsWhitespace).reverse.dropWhile isJsWhitespace).reverse

/-- JS `String.prototype.trim`. -/
def jsTrim (s : String) : String :=
  ⟨trimL s.data⟩

/-- JS toLowerCase (character-wise ASCII lowering, as all tag and mode
names handled here are ASCII). -/
def jsToLower (s : String) : String :=
  ⟨s.data.map Char.toLower⟩

/-- Accumulator-based worker for `splitOnCharL`. -/
def splitOnCharAux (sep : Char) : List Char → List Char → List (List Char)
  | [], acc => [acc.reverse]
  | c :: cs, acc =>
    if c = sep then acc.reverse :: splitOnCharAux sep cs []
    else splitOnCharAux sep cs (c :: acc)

/-- JS `String.prototype.split` with a one-character separator
(`style.split(';')`, `declaration.split(':')`, `className.split("-")`). -/
def splitOnCharL (sep : Char) (l : List Char) : List (List Char) :=
  splitOnCharAux sep l []

/-- JS `replace` with the global regex "dash followed by a lowercase
letter", upper-casing the captured letter: the kebab-case to camelCase
conversion used both by `getAppliedStyles` (its local `camel`) and by
`handleInlineStyles`. -/
def camelL : List Char → List Char
  | '-' :: c :: rest =>
    if 'a' ≤ c ∧ c ≤ 'z' then c.toUpper :: camelL rest
    else '-' :: camelL (c :: rest)
  | c :: rest => c :: camelL rest
  | [] => []

/-- String-level wrapper of `camelL`. -/
def camel (s : String) : String :=
  ⟨camelL s.data⟩

/-- JS `replace(/\.{3,}$/, '')` from `handleTextNode`: a trailing run of
three or more literal dots is removed (the regex is anchored at the end,
and a greedy leftmost match takes the whole maximal trailing run). -/
def stripTrailingDots (s : String) : String :=
  let r := s.data.reverse
  if 3 ≤ (r.takeWhile (fun c => c = '.')).length then
    ⟨(r.dropWhile (fun c => c = '.')).reverse⟩
  else s

/-- List prefix test used by `containsSubL`. -/
def isPreL : List Char → List Char → Bool
  | [], _ => true
  | _ :: _, [] => false
  | p :: ps, c :: cs => p = c && isPreL ps cs

/-- Substring containment on character lists (JS `RegExp.test` with a
fixed alternation of literal words). -/
def containsSubL (pat : List Char) : List Char → Bool
  | [] => isPreL pat []
  | c :: rest => isPreL pat (c :: rest) || containsSubL pat rest

/-- Substring containment on strings. -/
def containsSub (hay pat : String) : Bool :=
  containsSubL pat.data hay.data

/-! ## Style capture configuration (constants of the source) -/

/-- Constant STYLE_MODE of the source. -/
def STYLE_MODE : String := "uaDiffPlusInherited"

/-- Constant SUPPORTED_PROPS of the source: the fixed whitelist of
capturable properties. -/
def SUPPORTED_PROPS : List String := [
  "display", "position", "top", "right", "bottom", "left", "z-index",
  "width", "height", "min-width", "min-height", "max-width", "max-height", "aspect-ratio",
  "overflow", "overflow-x", "overflow-y",
  "margin-top", "margin-right", "margin-bottom", "margin-left",
  "padding-top", "padding-right", "padding-bottom", "padding-left",
  "background-color", "background-image", "background-repeat",
  "background-size", "background-position", "background-clip", "background-origin", "background-attachment",
  "background-blend-mode",
  "border-top-width", "border-right-width", "border-bottom-width", "border-left-width",
  "border-top-style", "border-right-style", "border-bottom-style", "border-left-style",
  "border-top-color", "border-right-color", "border-bottom-color", "border-left-color",
  "border-top-left-radius", "border-top-right-radius", "border-bottom-right-radius", "border-bottom-left-radius",
  "border-image",
  "box-shadow", "opacity", "transform", "filter", "backdrop-filter", "mix-blend-mode", "clip-path", "mask",
  "color", "font-family", "font-size", "font-weight", "font-style", "line-height",
  "letter-spacing", "text-transform", "text-decoration-line", "text-decoration-color", "text-decoration-thickness", "text-underline-offset",
  "text-align", "white-space", "text-overflow", "overflow-wrap", "word-break",
  "flex", "flex-grow", "flex-shrink", "flex-basis", "flex-direction", "flex-wrap",
  "align-items", "justify-content", "align-content", "align-self", "gap",
  "grid-template-columns", "grid-template-rows", "grid-auto-flow", "grid-auto-rows", "grid-auto-columns",
  "grid-column", "grid-row", "row-gap", "column-gap", "place-items", "place-content", "justify-items", "justify-self",
  "list-style", "list-style-type", "list-style-position", "list-style-image",
  "table-layout", "border-collapse", "border-spacing",
  "visibility", "pointer-events", "user-select", "cursor",
  "object-fit", "object-position"
]

/-- Constant INHERITABLE of the source (a JS `Set`, modelled as a list
queried with `contains`). -/
def INHERITABLE : List String := [
  "color", "font", "font-family", "font-feature-settings", "font-kerning", "font-language-override",
  "font-size", "font-size-adjust", "font-stretch", "font-style", "font-synthesis", "font-variant",
  "font-variant-caps", "font-variant-ligatures", "font-variant-numeric", "font-variant-position",
  "font-weight", "letter-spacing", "line-height", "text-align", "text-align-last", "text-indent",
  "text-justify", "text-shadow", "text-transform", "white-space", "word-break", "word-spacing", "word-wrap",
  "direction", "unicode-bidi", "writing-mode",
  "list-style", "list-style-image", "list-style-position", "list-style-type",
  "cursor", "quotes", "tab-size", "visibility", "pointer-events"
]

/-- Constant MEDIA_TAGS of the source. -/
def MEDIA_TAGS : List String := ["IMG", "VIDEO"]

/-- Constant HTML_RTE_COMPONENTS of the source. -/
def HTML_RTE_COMPONENTS : List String := ["richTextEditor", "htmlRte"]

/-! ## Style maps -/

/-- CSSStyleDeclaration.getPropertyValue: association-list lookup
returning the empty string when the property is absent (as the DOM API
does). -/
def lookupVal (m : List (String × String)) (k : String) : String :=
  match m.find? (fun p => p.1 = k) with
  | some p => p.2
  | none => ""

/-- JS object update `obj[k] = v` on an association-list style map:
any earlier binding of the key is dropped and the new binding appended. -/
def setStyle (m : List (String × String)) (k v : String) : List (String × String) :=
  (m.filter (fun p => p.1 ≠ k)) ++ [(k, v)]

/-! ## getAppliedStyles (the style resolution engine) -/

/-- The shared inheritance test of `getAppliedStyles`: in the source it
appears once as the body of the `inheritedOnly` case
(`if (ps && INHERITABLE.has(prop)) include = (val === ps.getPropertyValue(prop))`)
and once as `const inherited = ps && INHERITABLE.has(prop) && (val === ps.getPropertyValue(prop))`
in the combined case; both compute the same boolean. `ps` is the parent
element's computed style, absent when the element has no parent. -/
def inheritedCheck (ps : Option (List (String × String))) (prop val : String) : Bool :=
  match ps with
  | some p => INHERITABLE.contains prop && (val == lookupVal p prop)
  | none => false

/-- The per-property inclusion switch of `getAppliedStyles` (its
`switch (mode)` block). Unknown modes fall through to the
`uaDiffPlusInherited` behaviour, as the `default:` label in the source
does. `ua` is the user-agent baseline snapshot for the element's tag. -/
def includeProp (mode : String) (ps : Option (List (String × String)))
    (ua : String → String) (prop val : String) : Bool :=
  match mode with
  | "all" => true
  | "inheritedOnly" => inheritedCheck ps prop val
  | "uaDiff" => val != ua prop
  | _ => (val != ua prop) || inheritedCheck ps prop val

/-- The value skip of the collection loop:
`if (!val || val === 'initial' || val === 'unset') continue`. -/
def valSkip (val : String) : Bool :=
  val = "" || val = "initial" || val = "unset"

/-- The full keep condition applied to one `(prop, val)` pair of the
computed style: value skip, mode-dependent inclusion, then whitelist
intersection (`if (whitelist && whitelist.length)` with a list-valued
whitelist, so an empty whitelist disables the filter). -/
def keepProp (mode : String) (ps : Option (List (String × String)))
    (ua : String → String) (whitelist : List String) (pv : String × String) : Bool :=
  !valSkip pv.2 && includeProp mode ps ua pv.1 pv.2 &&
    (whitelist.isEmpty || whitelist.contains pv.1)

/-- The `outKebab` accumulation loop of `getAppliedStyles`: the computed
style `cs` is an enumeration of `(property, value)` pairs (a
CSSStyleDeclaration lists each property once, so keyed object insertion
coincides with filtering). -/
def collectKebab (cs : List (String × String)) (ps : Option (List (String × String)))
    (ua : String → String) (mode : String) (whitelist : List String) :
    List (String × String) :=
  cs.filter (keepProp mode ps ua whitelist)

/-- The button-like anchor test `/(btn|button|cta)/i.test(cls)`. -/
def isBtnLike (className : String) : Bool :=
  let c := jsToLower className
  containsSub c "btn" || containsSub c "button" || containsSub c "cta"

/-- getAppliedStyles of the source, given the element's computed style
enumeration `cs`, the parent's computed style `ps` (absent for a
parentless element), the user-agent baseline `ua` for the element's tag,
the mode, the whitelist, the element's raw `tagName` and its class
string (the empty string when `className` is not a plain string). The
offscreen-baseline acquisition is factored out: see
`getAppliedStylesTry` for the throwing behaviour. -/
def getAppliedStyles (cs : List (String × String)) (ps : Option (List (String × String)))
    (ua : String → String) (mode : String) (whitelist : List String)
    (tagName className : String) : List (String × String) :=
  let outKebab := collectKebab cs ps ua mode whitelist
  let outCamel := outKebab.map (fun p => (camel p.1, p.2))
  if tagName = "A" ∧ isBtnLike className ∧ lookupVal outCamel "display" = "" then
    outCamel ++ [("display", "inline-block")]
  else outCamel

/-- getAppliedStyles including the offscreen baseline acquisition at its
head. Creating the baseline iframe and reading the pristine snapshot is
a browser action that can fail; the result of that action is passed in
as `uaRes`. The source contains no try/catch inside `getAppliedStyles`,
so a failure there propagates to the caller (modelled as `Except.error`). -/
def getAppliedStylesTry (uaRes : Except Unit (String → String))
    (cs : List (String × String)) (ps : Option (List (String × String)))
    (mode : String) (whitelist : List String)
    (tagName className : String) : Except Unit (List (String × String)) :=
  match uaRes with
  | .error e => .error e
  | .ok ua => .ok (getAppliedStyles cs ps ua mode whitelist tagName className)

/-! ## handleInlineStyles (the inline style attribute parser) -/

/-- The per-declaration step of `handleInlineStyles`:
the declaration is split on every colon, each segment trimmed, and the
first two segments destructured as property and value
(`const [property, value] = declaration.split(':').map(s => s.trim())`);
the pair is kept only when both are nonempty (JS truthiness of
`property && value`), with the property camel-cased. -/
def parseDeclaration (decl : List Char) : Option (String × String) :=
  match (splitOnCharL ':' decl).map trimL with
  | p :: v :: _ =>
    if p ≠ [] ∧ v ≠ [] then some (⟨camelL p⟩, ⟨v⟩) else none
  | _ => none

/-- handleInlineStyles of the source: reads the element's `style`
attribute (absent or empty are both falsy, returning the empty map),
splits it on semicolons and folds the parsed declarations into a keyed
map. The `designTokens` argument is threaded through as in the source
and unused by it. -/
def handleInlineStyles (style : Option String)
    (_designTokens : List (String × String)) : List (String × String) :=
  match style with
  | none => []
  | some st =>
    if st = "" then []
    else
      (splitOnCharL ';' st.data).foldl
        (fun acc decl =>
          match parseDeclaration decl with
          | some pv => setStyle acc pv.1 pv.2
          | none => acc) []

/-! ## handleAdditionalStyles (tag and class conditioned exceptions) -/

/-- JS `Number(s) / 100` for the `bg-opacity-N` utility class, rendered
as the decimal string JS would produce for the natural-number arguments
these classes carry; a missing or non-numeric segment yields NaN
(except that JS coerces the empty string to 0). -/
def decimalDiv100 (s : String) : String :=
  if s = "" then "0"
  else
    match s.toNat? with
    | none => "NaN"
    | some n =>
      let whole := n / 100
      let frac := n % 100
      if frac = 0 then toString whole
      else if frac % 10 = 0 then toString whole ++ "." ++ toString (frac / 10)
      else if frac < 10 then toString whole ++ ".0" ++ toString frac
      else toString whole ++ "." ++ toString frac

/-- Accumulator worker splitting a character list into whitespace
separated words (dropping empty segments), for `classList`. -/
def wordsAux : List Char → List Char → List String
  | acc, [] => if acc = [] then [] else [⟨acc.reverse⟩]
  | acc, c :: rest =>
    if isJsWhitespace c then
      if acc = [] then wordsAux [] rest
      else (⟨acc.reverse⟩ : String) :: wordsAux [] rest
    else wordsAux (c :: acc) rest

/-- The element's DOM `classList` (`Array.from(element.classList)`),
derived from the raw class attribute value. -/
def classListOf (classAttr : String) : List String :=
  wordsAux [] classAttr.data

/-- handleAdditionalStyles of the source: the tag/class conditioned
style exception table. `cs` is the element's computed style (read with
`window.getComputedStyle` in the ul/ol/nav/li cases); the debug
`console.log` calls of the source have no effect on the result and are
not modelled. Returns the `{default, tablet, mobile}` triple whose
`default` holds the accumulated `additionalStyles`. -/
def handleAdditionalStyles (tagName : String) (classList : List String)
    (cs : List (String × String)) :
    (List (String × String)) × (List (String × String)) × (List (String × String)) :=
  let base : List (String × String) :=
    if classList.contains "border" then [("borderStyle", "solid")] else []
  let additional :=
    match jsToLower tagName with
    | "img" => setStyle base "maxWidth" "100%"
    | "button" =>
      let b := setStyle (setStyle base "backgroundColor" "transparent") "backgroundImage" "none"
      if ¬ classList.contains "border" then setStyle b "border" "unset" else b
    | "div" =>
      classList.foldl
        (fun acc className =>
          let acc :=
            if className.startsWith "bg-opacity" then
              setStyle acc "opacity"
                (match (className.splitOn "-").get? 2 with
                 | some seg => decimalDiv100 seg
                 | none => "NaN")
            else acc
          if className.startsWith "border" then setStyle acc "border" "0 solid" else acc)
        base
    | "p" => setStyle base "display" "inline-block"
    | "h1" => setStyle base "display" "block"
    | "h2" => setStyle base "display" "block"
    | "h3" => setStyle base "display" "block"
    | "h4" => setStyle base "display" "block"
    | "h5" => setStyle base "display" "block"
    | "h6" => setStyle base "display" "block"
    | "ul" =>
      let b :=
        if lookupVal cs "display" = "flex" then
          setStyle (setStyle (setStyle (setStyle (setStyle base "display" "flex")
            "flexDirection" (lookupVal cs "flex-direction"))
            "justifyContent" (lookupVal cs "justify-content"))
            "alignItems" (lookupVal cs "align-items"))
            "gap" (lookupVal cs "gap")
        else if lookupVal cs "display" = "grid" then
          setStyle (setStyle (setStyle (setStyle base "display" "grid")
            "gridTemplateColumns" (lookupVal cs "grid-template-columns"))
            "gridTemplateRows" (lookupVal cs "grid-template-rows"))
            "gap" (lookupVal cs "gap")
        else setStyle base "display" (lookupVal cs "display")
      setStyle (setStyle (setStyle (setStyle (setStyle (setStyle (setStyle b
        "listStyleType" (lookupVal cs "list-style-type"))
        "listStylePosition" (lookupVal cs "list-style-position"))
        "listStyleImage" (lookupVal cs "list-style-image"))
        "marginTop" (lookupVal cs "margin-top"))
        "marginBottom" (lookupVal cs "margin-bottom"))
        "paddingLeft" (lookupVal cs "padding-left"))
        "paddingRight" (lookupVal cs "padding-right")
    | "ol" =>
      let b :=
        if lookupVal cs "display" = "flex" then
          setStyle (setStyle (setStyle (setStyle (setStyle base "display" "flex")
            "flexDirection" (lookupVal cs "flex-direction"))
            "justifyContent" (lookupVal cs "justify-content"))
            "alignItems" (lookupVal cs "align-items"))
            "gap" (lookupVal cs "gap")
        else if lookupVal cs "display" = "grid" then
          setStyle (setStyle (setStyle (setStyle base "display" "grid")
            "gridTemplateColumns" (lookupVal cs "grid-template-columns"))
            "gridTemplateRows" (lookupVal cs "grid-template-rows"))
            "gap" (lookupVal cs "gap")
        else setStyle base "display" (lookupVal cs "display")
      setStyle (setStyle (setStyle (setStyle (setStyle (setStyle (setStyle b
        "listStyleType" (lookupVal cs "list-style-type"))
        "listStylePosition" (lookupVal cs "list-style-position"))
        "listStyleImage" (lookupVal cs "list-style-image"))
        "marginTop" (lookupVal cs "margin-top"))
        "marginBottom" (lookupVal cs "margin-bottom"))
        "paddingLeft" (lookupVal cs "padding-left"))
        "paddingRight" (lookupVal cs "padding-right")
    | "nav" =>
      let b :=
        if lookupVal cs "display" = "flex" then
          setStyle (setStyle (setStyle (setStyle (setStyle base "display" "flex")
            "flexDirection" (lookupVal cs "flex-direction"))
            "justifyContent" (lookupVal cs "justify-content"))
            "alignItems" (lookupVal cs "align-items"))
            "gap" (lookupVal cs "gap")
        else if lookupVal cs "display" = "grid" then
          setStyle (setStyle (setStyle (setStyle base "display" "grid")
            "gridTemplateColumns" (lookupVal cs "grid-template-columns"))
            "gridTemplateRows" (lookupVal cs "grid-template-rows"))
            "gap" (lookupVal cs "gap")
        else setStyle base "display" (lookupVal cs "display")
      setStyle (setStyle (setStyle (setStyle (setStyle (setStyle (setStyle b
        "listStyleType" (lookupVal cs "list-style-type"))
        "listStylePosition" (lookupVal cs "list-style-position"))
        "listStyleImage" (lookupVal cs "list-style-image"))
        "marginTop" (lookupVal cs "margin-top"))
        "marginBottom" (lookupVal cs "margin-bottom"))
        "paddingLeft" (lookupVal cs "padding-left"))
        "paddingRight" (lookupVal cs "padding-right")
    | "li" =>
      setStyle (setStyle (setStyle (setStyle (setStyle (setStyle (setStyle (setStyle
        (setStyle (setStyle base
        "display" (lookupVal cs "display"))
        "listStyleType" (lookupVal cs "list-style-type"))
        "listStylePosition" (lookupVal cs "list-style-position"))
        "listStyleImage" (lookupVal cs "list-style-image"))
        "marginTop" (lookupVal cs "margin-top"))
        "marginBottom" (lookupVal cs "margin-bottom"))
        "paddingLeft" (lookupVal cs "padding-left"))
        "paddingRight" (lookupVal cs "padding-right"))
        "letterSpacing" (lookupVal cs "letter-spacing"))
        "textTransform" (lookupVal cs "text-transform")
    | _ => base
  (additional, [], [])

/-! ## getElementResponsiveStyles (the style deriver and merger) -/

/-- The `{default, tablet, mobile}` structure carried under
`styles.default.responsiveStyles` of every emitted node. -/
structure ResponsiveStyles where
  dflt : List (String × String)
  tablet : List (String × String)
  mobile : List (String × String)
deriving DecidableEq, Repr

/-- JS object spread `{...a, ...b}`: the bindings of `b` overwrite those
of `a`. -/
def mergeStyles (a b : List (String × String)) : List (String × String) :=
  b.foldl (fun acc pv => setStyle acc pv.1 pv.2) a

/-- getElementResponsiveStyles of the source. Its entire body sits in a
try/catch whose catch returns the fully empty triple; the only step that
can throw is `getAppliedStyles` (whose offscreen-baseline acquisition
result is `uaRes`), so the match below is that try/catch. On success the
computed styles, the `additional.default` exceptions and the inline
styles are merged in that order of increasing precedence, and only the
`default` breakpoint is populated. -/
def getElementResponsiveStyles (uaRes : Except Unit (String → String))
    (tagName classAttr : String) (styleAttr : Option String)
    (cs : List (String × String)) (parentCs : Option (List (String × String)))
    (designTokens : List (String × String)) : ResponsiveStyles :=
  match getAppliedStylesTry uaRes cs parentCs STYLE_MODE SUPPORTED_PROPS tagName classAttr with
  | .error _ => ⟨[], [], []⟩
  | .ok stylesDefault =>
    let inlineStyles := handleInlineStyles styleAttr designTokens
    let classList := classListOf classAttr
    let additional := handleAdditionalStyles tagName classList cs
    let mergedDefault := mergeStyles (mergeStyles stylesDefault additional.1) inlineStyles
    ⟨mergedDefault, [], []⟩

/-! ## getPageRoute (filename route derivation) -/

/-- JS `replace` with the anchored regex removing leading and trailing
slash runs from the pathname. -/
def stripSlashes (l : List Char) : List Char :=
  ((l.dropWhile (fun c => c = '/')).reverse.dropWhile (fun c => c = '/')).reverse

/-- A character matched by the class "underscore or whitespace" of the
run-collapsing replace in `getPageRoute`. -/
def isUnderscoreOrWs (c : Char) : Bool :=
  c = '_' || isJsWhitespace c

/-- Worker for the global replace collapsing every run of underscores
and whitespace into a single underscore; the flag records whether the
previous character belonged to such a run. -/
def collapseAux : Bool → List Char → List Char
  | _, [] => []
  | inRun, c :: rest =>
    if isUnderscoreOrWs c then
      if inRun then collapseAux true rest
      else '_' :: collapseAux true rest
    else c :: collapseAux false rest

/-- A character kept by the special-character removal of `getPageRoute`
(letters, digits, underscore, hyphen). -/
def keepRouteChar (c : Char) : Bool :=
  ('a' ≤ c && c ≤ 'z') || ('A' ≤ c && c ≤ 'Z') || ('0' ≤ c && c ≤ '9') ||
    c = '_' || c = '-'

/-- getPageRoute of the source, as a function of the page URL's
hostname, port (empty when the URL carries none) and pathname. The
surrounding try/catch only guards URL parsing, which cannot fail for the
already-parsed components passed here. -/
def getPageRoute (hostname port pathname : String) : String :=
  let hostPart := if port ≠ "" then hostname ++ "_" ++ port else hostname
  let p1 := stripSlashes pathname.data
  let p2 := if p1 = [] then "root".data else p1
  let fullRoute := hostPart.data ++ '_' :: p2
  let clean1 := collapseAux false fullRoute
  let clean2 := clean1.filter keepRouteChar
  match clean2 with
  | c :: _ =>
    if '0' ≤ c ∧ c ≤ '9' then ⟨"page_".data ++ clean2⟩ else (⟨clean2⟩ : String)
  | [] => ⟨clean2⟩

/-! ## DOM model

A rendered DOM node: either a text node or an element carrying its tag
name (as the DOM `tagName` / `nodeName` reports it), its attribute map,
its computed-style snapshot (the data `window.getComputedStyle` exposes
for it) and its child nodes in document order. -/

inductive DomNode where
  | text (content : String)
  | elem (tagName : String) (attrs : List (String × String))
      (cs : List (String × String)) (childNodes : List DomNode)

/-- DOM `nodeName`: the tag name for elements, "#text" for text nodes. -/
def DomNode.nodeName : DomNode → String
  | .text _ => "#text"
  | .elem t _ _ _ => t

/-- nodeType === Node.TEXT_NODE. -/
def DomNode.isTextNode : DomNode → Bool
  | .text _ => true
  | .elem _ _ _ _ => false

/-- nodeType === Node.ELEMENT_NODE. -/
def DomNode.isElementNode : DomNode → Bool
  | .text _ => false
  | .elem _ _ _ _ => true

/-- DOM `getAttribute`: the attribute's value, or null (`none`) when the
attribute is absent. -/
def getAttr (attrs : List (String × String)) (name : String) : Option String :=
  (attrs.find? (fun p => p.1 = name)).map (fun p => p.2)

/-- DOM `element.children`: the element-node children only. -/
def elementChildren (kids : List DomNode) : List DomNode :=
  kids.filter DomNode.isElementNode

mutual
/-- DOM `textContent` of one node: the concatenation of all descendant
text, in document order. -/
def textContentNode : DomNode → String
  | .text s => s
  | .elem _ _ _ kids => textContentList kids

/-- DOM `textContent` across a child list. -/
def textContentList : List DomNode → String
  | [] => ""
  | n :: rest => textContentNode n ++ textContentList rest
end

mutual
/-- Worker of `getElementsByTagNameSource`: the attribute maps of every
descendant element whose tag is `source` (HTML tag matching is case
insensitive), in document order. -/
def sourceElems : DomNode → List (List (String × String))
  | .text _ => []
  | .elem t a _ kids =>
    (if jsToLower t = "source" then [a] else []) ++ sourceElemsList kids
/-- `sourceElems` over a child list. -/
def sourceElemsList : List DomNode → List (List (String × String))
  | [] => []
  | n :: rest => sourceElems n ++ sourceElemsList rest
end

mutual
/-- Markup serialization (`innerHTML` / `outerHTML`). Attribute
serialization is elided: the produced string is opaque to every claim,
only its role as a carrier of the raw markup matters. -/
def serializeNode : DomNode → String
  | .text s => s
  | .elem t _ _ kids =>
    "<" ++ jsToLower t ++ ">" ++ serializeList kids ++ "</" ++ jsToLower t ++ ">"
/-- `innerHTML` of an element with the given children. -/
def serializeList : List DomNode → String
  | [] => ""
  | n :: rest => serializeNode n ++ serializeList rest
end

/-- getElementAttributes of the source: every attribute except `class`
and `style`. -/
def getElementAttributes (attrs : List (String × String)) : List (String × String) :=
  attrs.filter (fun p => p.1 ≠ "class" ∧ p.1 ≠ "style")

/-! ## getComponentName (the component classifier) -/

/-- getComponentName of the source: tag-driven classification, with the
computed display and child/text presence deciding the ambiguous cases. -/
def getComponentName (tagName : String) (cs : List (String × String))
    (kids : List DomNode) : String :=
  let htmlTag := jsToLower tagName
  if htmlTag = "h1" ∨ htmlTag = "h2" ∨ htmlTag = "h3" ∨ htmlTag = "h4" ∨
      htmlTag = "h5" ∨ htmlTag = "h6" then "header"
  else if htmlTag = "a" then
    if (elementChildren kids).length > 0 then "link-container" else "link"
  else if htmlTag = "video" then "video"
  else if htmlTag = "section" then "section"
  else if htmlTag = "p" ∨ htmlTag = "span" ∨ htmlTag = "label" then "text"
  else if htmlTag = "button" then "button"
  else if htmlTag = "img" ∨ htmlTag = "svg" then "image"
  else if htmlTag = "div" then
    if (elementChildren kids).isEmpty ∧ jsTrim (textContentList kids) ≠ "" then "text"
    else if lookupVal cs "display" = "flex" then
      if lookupVal cs "flex-direction" = "column" then "vstack" else "hstack"
    else if lookupVal cs "display" = "grid" then "box"
    else "box"
  else
    if (elementChildren kids).isEmpty ∧ jsTrim (textContentList kids) ≠ "" then "text"
    else "box"

/-! ## getFullTextContent and handleTextNode -/

/-- The CSS-truncation test of `getFullTextContent`: a line-clamp class
on the element, or an inline (style attribute) text-overflow of
`ellipsis`, or an inline overflow of `hidden`. The `element.style`
accessors read the inline declarations, modelled through the same
parser as `handleInlineStyles`. -/
def hasTruncationIndicator (attrs : List (String × String)) : Bool :=
  let cl := classListOf ((getAttr attrs "class").getD "")
  let inl := handleInlineStyles (getAttr attrs "style") []
  cl.contains "line-clamp-3" || cl.contains "line-clamp-2" ||
    cl.contains "line-clamp-1" ||
    lookupVal inl "textOverflow" = "ellipsis" ||
    lookupVal inl "overflow" = "hidden"

/-- getFullTextContent of the source. In the truncation branch the code
momentarily neutralizes the overflow / text-overflow / white-space /
display inline declarations, reads `textContent`, and restores them;
since CSS truncation is purely visual, `textContent` is the complete
text either way, so both branches read the full text and trim it. -/
def getFullTextContent (attrs : List (String × String)) (kids : List DomNode) : String :=
  if hasTruncationIndicator attrs then jsTrim (textContentList kids)
  else jsTrim (textContentList kids)

/-- handleTextNode of the source, as the text value it stores: given the
incoming text content and the previous value of the node's text property
(the third parameter, defaulting to the falsy empty string), it returns
the new `props.text.staticString`, or `none` when it leaves the property
untouched (blank text, or text reduced to nothing after stripping the
trailing dot run). -/
def handleTextNode (textContent : String) (previousValue : Option String) : Option String :=
  if jsTrim textContent ≠ "" then
    let cleanText := stripTrailingDots (jsTrim textContent)
    if cleanText = "..." ∨ cleanText = "" then none
    else
      some (match previousValue with
        | some pv => if pv ≠ "" then pv ++ " " ++ cleanText else cleanText
        | none => cleanText)
  else none

/-! ## Node output model

The emitted Node. The `uid` field (a `Math.random`-based UUID) and the
`metadata` bundle (debugging correlation data) are not modelled: no
claim observes them. The slot identifier allocated for a node's child
list is likewise a fresh UUID of which only the equality with the
node's own `props.children` descriptor is observable, so it is
represented by the fixed token `slotUid`. -/

/-- A typed property value descriptor
(`{type: "string"|"imageUrl"|"slot", staticString?|staticValue?|slot?}`);
`mapped` stands for an opaque descriptor arriving through an external
mapping entry's `propMappings`. -/
inductive PropVal where
  | stringVal (staticString : Option String)
  | staticVal (staticValue : Option String)
  | imageUrl (staticString : String)
  | slotVal (slot : String)
  | mapped (descr : String)
deriving DecidableEq, Repr

/-- JS keyed object update for an association list with values in `α`. -/
def setEntry {α : Type} (m : List (String × α)) (k : String) (v : α) : List (String × α) :=
  (m.filter (fun p => p.1 ≠ k)) ++ [(k, v)]

/-- Keyed lookup for an association list with values in `α`. -/
def findEntry {α : Type} (m : List (String × α)) (k : String) : Option α :=
  (m.find? (fun p => p.1 = k)).map (fun p => p.2)

/-- The emitted Node (`elementJSON` of the source). -/
inductive NodeJSON where
  | mk (type : String) (attrs : List (String × String))
      (props : List (String × PropVal))
      (slots : List (String × List NodeJSON))
      (styles : ResponsiveStyles)

/-- The node's semantic component kind. -/
def NodeJSON.type : NodeJSON → String
  | .mk t _ _ _ _ => t

/-- The node's attribute map. -/
def NodeJSON.attrs : NodeJSON → List (String × String)
  | .mk _ a _ _ _ => a

/-- The node's property map. -/
def NodeJSON.props : NodeJSON → List (String × PropVal)
  | .mk _ _ p _ _ => p

/-- The node's slot map. -/
def NodeJSON.slots : NodeJSON → List (String × List NodeJSON)
  | .mk _ _ _ s _ => s

/-- The node's `styles.default.responsiveStyles` structure. -/
def NodeJSON.styles : NodeJSON → ResponsiveStyles
  | .mk _ _ _ _ st => st

/-- Overwrite the node's type. -/
def NodeJSON.setType : NodeJSON → String → NodeJSON
  | .mk _ a p s st, t => .mk t a p s st

/-- Overwrite the node's props. -/
def NodeJSON.setProps : NodeJSON → List (String × PropVal) → NodeJSON
  | .mk t a _ s st, p => .mk t a p s st

/-- Overwrite the node's slots. -/
def NodeJSON.setSlots : NodeJSON → List (String × List NodeJSON) → NodeJSON
  | .mk t a p _ st, s => .mk t a p s st

/-- Overwrite the node's attrs. -/
def NodeJSON.setAttrs : NodeJSON → List (String × String) → NodeJSON
  | .mk t _ p s st, a => .mk t a p s st

/-! ## Component mappings -/

/-- One id binding inside a mapping entry. -/
structure NodeIdEntry where
  nodeId : String
  variantProperties : List (String × String)
deriving DecidableEq, Repr

/-- One externally supplied component-mapping entry
(`{nodeIds, codeComponentName, propMappings, figmaComponentKey}`). -/
structure ComponentMapping where
  nodeIds : List NodeIdEntry
  codeComponentName : String
  propMappings : List (String × PropVal)
  figmaComponentKey : String
deriving DecidableEq, Repr

/-- The `component` object assembled by the mapping scan of
`convertHTMLToComposableJSON`. -/
structure Component where
  codeComponentName : String
  propMappings : List (String × PropVal)
  nodeId : String
  variantProperties : List (String × String)
  figmaComponentKey : String
deriving DecidableEq, Repr

/-- The inner `componentMapping.nodeIds.find(node => node.nodeId === figmaNodeId)`:
the first id binding of the entry whose id equals the element's
correlation id (`null` when the attribute is absent never equals a
string id). -/
def findNodeId (figmaNodeId : Option String) (l : List NodeIdEntry) : Option NodeIdEntry :=
  l.find? (fun n => some n.nodeId = figmaNodeId)

/-- The `component` record built from a matching entry. -/
def componentOf (cm : ComponentMapping) (n : NodeIdEntry) : Component :=
  ⟨cm.codeComponentName, cm.propMappings, n.nodeId, n.variantProperties, cm.figmaComponentKey⟩

/-- The body of the `componentMappings.forEach` callback: an entry
containing a matching id overwrites the accumulated `component`, any
other entry leaves it alone. -/
def mappingStep (figmaNodeId : Option String) (acc : Option Component)
    (cm : ComponentMapping) : Option Component :=
  match findNodeId figmaNodeId cm.nodeIds with
  | some n => some (componentOf cm n)
  | none => acc

/-- The `componentMappings.forEach` scan of the source: starting from the
empty object, every entry containing a matching id overwrites
`component`, so the accumulated value is governed by the later matches. -/
def selectComponent (figmaNodeId : Option String) (mappings : List ComponentMapping) :
    Option Component :=
  mappings.foldl (mappingStep figmaNodeId) none

/-- handleCustomComponents of the source: a truthy (nonempty)
`codeComponentName` overwrites the node's type, and the entry's
`propMappings` (an array-valued input, truthy in JS even when empty) is
spread over the node's props; the `componentMapping` metadata bundle is
debugging data and not modelled. -/
def handleCustomComponents (json : NodeJSON) (component : Component) : NodeJSON :=
  let json := if component.codeComponentName ≠ "" then json.setType component.codeComponentName else json
  json.setProps (component.propMappings.foldl (fun acc pv => setEntry acc pv.1 pv.2) json.props)

/-! ## Per-tag side-channel handlers -/

/-- handleButtonElement of the source: stores the label property. -/
def handleButtonElement (textContent : String) (json : NodeJSON) : NodeJSON :=
  json.setProps (setEntry json.props "label" (.stringVal (some textContent)))

/-- handleLinkElement of the source (guarded on the raw uppercase tag
name): stores href and label, plus target and rel when present and
nonempty; the `linkInfo` metadata bundle is not modelled. -/
def handleLinkElement (tagName : String) (attrs : List (String × String))
    (kids : List DomNode) (json : NodeJSON) : NodeJSON :=
  if tagName ≠ "A" then json
  else
    let href := getAttr attrs "href"
    let target := getAttr attrs "target"
    let rel := getAttr attrs "rel"
    let textContent := jsTrim (textContentList kids)
    let p := setEntry json.props "href" (PropVal.stringVal href)
    let p := setEntry p "label" (PropVal.stringVal (some textContent))
    let p := match target with
      | some t => if t ≠ "" then setEntry p "target" (PropVal.stringVal (some t)) else p
      | none => p
    let p := match rel with
      | some r => if r ≠ "" then setEntry p "rel" (PropVal.stringVal (some r)) else p
      | none => p
    json.setProps p

/-- handleImageElement of the source (guarded on the raw tag name IMG).
The absolutization `new URL(element.src, window.location.href).href` is
host dependent and opaque to every claim; the resolved value is
represented by the raw src attribute content. The `mediaInfo` metadata
bundle is not modelled. -/
def handleImageElement (tagName : String) (attrs : List (String × String))
    (json : NodeJSON) : NodeJSON :=
  if tagName ≠ "IMG" then json
  else
    let absoluteSrc := (getAttr attrs "src").getD ""
    let p := setEntry json.props "src" (PropVal.imageUrl absoluteSrc)
    let p := setEntry p "alt" (PropVal.staticVal (getAttr attrs "alt"))
    json.setProps p

/-- handleVideoElement of the source (guarded on the raw tag name
VIDEO): reads the first descendant `source` element's src and type into
the node's attrs. With no `source` descendant, `sources[0]` is undefined
and the `.getAttribute` access throws a TypeError, modelled as
`Except.error` (the structural invariant violation the spec's error
taxonomy points out as unguarded). A null attribute value is stored as
the empty string. The `mediaInfo` metadata bundle is not modelled. -/
def handleVideoElement (tagName : String) (kids : List DomNode)
    (json : NodeJSON) : Except Unit NodeJSON :=
  if tagName ≠ "VIDEO" then .ok json
  else
    match sourceElemsList kids with
    | [] => .error ()
    | sa :: _ =>
      let a := setEntry json.attrs "src" ((getAttr sa "src").getD "")
      let a := setEntry a "type" ((getAttr sa "type").getD "")
      .ok (json.setAttrs a)

/-- convertSVGToBase64 of the source: the element's serialized markup
re-encoded as a data URI. The base64 transport encoding (`btoa`) is an
injective re-coding opaque to every claim and is modelled by the
identity on the serialized markup. -/
def convertSVGToBase64 (tagName : String) (attrs cs : List (String × String))
    (kids : List DomNode) : String :=
  "data:image/svg+xml;base64," ++ serializeNode (.elem tagName attrs cs kids)

/-! ## The tree converter -/

/-- The slot identifier allocated (`const uid = browserUtils.generateUUID()`)
for a node's child list; see the remark on `NodeJSON` about modelling
the fresh UUID by a fixed token. -/
def slotUid : String := "slot-uid"

/-- The children-attachment epilogue of `convertHTMLToComposableJSON`:
a nonempty child list is placed under one allocated slot id and the
`children` property of slot type points at it; an empty list leaves
props and slots untouched. -/
def attachChildren (json : NodeJSON) (children : List NodeJSON) : NodeJSON :=
  if children.isEmpty then json
  else
    (json.setProps (setEntry json.props "children" (PropVal.slotVal slotUid))).setSlots
      (json.slots ++ [(slotUid, children)])

/-- The effect of a `handleTextNode(textContent, json, previousValue)`
call on the node's props: the text property is overwritten when the
helper produces a value and left untouched otherwise. -/
def applyTextProp (props : List (String × PropVal)) (textContent : String)
    (previousValue : Option String) : List (String × PropVal) :=
  match handleTextNode textContent previousValue with
  | some t => setEntry props "text" (PropVal.stringVal (some t))
  | none => props

/-- The line-break merge loop of `convertHTMLToComposableJSON` (the
`hasBrElement` branch). `recur` is the recursive conversion of a child
node (already fixed to this element's computed style as the parent
style). `fullText` is `getFullTextContent(element)`, which the source
reads for every text child. The accumulator is the running
`childJSON.props.text.staticString`. The source pushes the one shared
`childJSON` object by reference, so every pushed occurrence shows the
final accumulated text; the pushes are therefore recorded as `Sum.inl`
markers substituted with the final `childJSON` afterwards. Returns the
recorded pushes, the final text accumulator, and whether a text child
was seen (the source sets `elementJSON.type = "box"` exactly then). -/
def brLoop (recur : DomNode → Except Unit (Option NodeJSON)) (fullText : String) :
    List DomNode → Option String →
    Except Unit (List (Sum Unit NodeJSON) × Option String × Bool)
  | [], acc => .ok ([], acc, false)
  | childNode :: rest, acc =>
    if jsToLower childNode.nodeName = "br" then brLoop recur fullText rest acc
    else
      match childNode with
      | .text _ =>
        let acc' := match handleTextNode fullText acc with
          | some t => some t
          | none => acc
        let pushNow := match rest.head? with
          | none => true
          | some nxt => !nxt.isTextNode && jsToLower nxt.nodeName ≠ "br"
        (match brLoop recur fullText rest acc' with
        | .error e => .error e
        | .ok (items, accF, _) =>
          .ok ((if pushNow then Sum.inl () :: items else items), accF, true))
      | .elem t a c k =>
        (match recur (.elem t a c k) with
        | .error e => .error e
        | .ok r =>
          match brLoop recur fullText rest acc with
          | .error e => .error e
          | .ok (items, accF, saw) =>
            .ok ((match r with
              | some j => Sum.inr j :: items
              | none => items), accF, saw))
termination_by structural l _ => l

/-- The default child-processing loop of `convertHTMLToComposableJSON`:
element children are recursed (null results skipped), and the returned
flag records whether any direct text child was seen (the source then
processes the element's full text into the text property, unless the
element is an anchor). -/
def defaultLoop (recur : DomNode → Except Unit (Option NodeJSON)) :
    List DomNode → Except Unit (List NodeJSON × Bool)
  | [] => .ok ([], false)
  | childNode :: rest =>
    match childNode with
    | .text _ =>
      (match defaultLoop recur rest with
      | .error e => .error e
      | .ok (kids, _) => .ok (kids, true))
    | .elem t a c k =>
      (match recur (.elem t a c k) with
      | .error e => .error e
      | .ok r =>
        match defaultLoop recur rest with
        | .error e => .error e
        | .ok (kids, saw) =>
          .ok ((match r with
            | some j => j :: kids
            | none => kids), saw))

/-- The non-custom-component body of `convertHTMLToComposableJSON` (the
`else` of the `component?.nodeId` test, source lines 985 to 1120). -/
def convertElse (recur : DomNode → Except Unit (Option NodeJSON))
    (tagName : String) (attrs cs : List (String × String))
    (childNodes : List DomNode) (componentName : String)
    (elementJSON : NodeJSON) : Except Unit NodeJSON :=
  let hasBrElement := childNodes.any (fun n => jsToLower n.nodeName = "br")
  if jsToLower tagName = "div" ∧ childNodes.isEmpty ∧ textContentList childNodes ≠ "" then
    -- div with text content but no child nodes; an element without child
    -- nodes has empty textContent, so this guard can never hold, but it
    -- is kept exactly as the source has it
    let textContent := getFullTextContent attrs childNodes
    let childJSON : NodeJSON := .mk "text" [] [] [] elementJSON.styles
    let children :=
      if jsTrim textContent ≠ "" then
        [childJSON.setProps (applyTextProp childJSON.props textContent none)]
      else []
    .ok (attachChildren elementJSON children)
  else if hasBrElement ∧ ¬ HTML_RTE_COMPONENTS.contains componentName then
    match brLoop recur (getFullTextContent attrs childNodes) childNodes none with
    | .error e => .error e
    | .ok (items, accText, sawText) =>
      let childJSON : NodeJSON := .mk componentName []
        (match accText with
         | some t => [("text", PropVal.stringVal (some t))]
         | none => []) [] elementJSON.styles
      let children := items.map (fun it =>
        match it with
        | Sum.inl _ => childJSON
        | Sum.inr j => j)
      let json := if sawText then elementJSON.setType "box" else elementJSON
      .ok (attachChildren json children)
  else
    if HTML_RTE_COMPONENTS.contains componentName ∧ ¬ childNodes.isEmpty then
      .ok (elementJSON.setProps (setEntry elementJSON.props "html"
        (PropVal.stringVal (some (serializeList childNodes)))))
    else if jsToLower tagName = "svg" then
      .ok (elementJSON.setProps (setEntry elementJSON.props "src"
        (PropVal.imageUrl (convertSVGToBase64 tagName attrs cs childNodes))))
    else
      let json := if jsToLower tagName = "button" then
          handleButtonElement (getFullTextContent attrs childNodes) elementJSON
        else elementJSON
      let json := if jsToLower tagName = "a" then
          handleLinkElement tagName attrs childNodes json
        else json
      -- handleFormElement only contributes metadata and is not modelled
      if MEDIA_TAGS.contains tagName then
        let json := handleImageElement tagName attrs json
        match handleVideoElement tagName childNodes json with
        | .error e => .error e
        | .ok json => .ok json
      else
        match defaultLoop recur childNodes with
        | .error e => .error e
        | .ok (children, sawTextChild) =>
          let json :=
            if sawTextChild ∧ jsToLower tagName ≠ "a" then
              json.setProps (applyTextProp json.props (getFullTextContent attrs childNodes) none)
            else json
          .ok (attachChildren json children)

/-- convertHTMLToComposableJSON of the source. The mutual JS recursion
is modelled with an explicit recursion-depth budget (first numeric
argument), decremented at each recursive descent; an exhausted budget is
an error, so any successful (`Except.ok`) result is independent of the
budget being large enough. `uaRes` is the outcome of acquiring the
offscreen user-agent baseline (per tag, per property); `parentCs` is the
computed style of the element's parent, used for inherited-style
detection. -/
def convertHTMLToComposableJSON (uaRes : Except Unit (String → String → String))
    (componentMappings : List ComponentMapping) (designTokens : List (String × String)) :
    Nat → Option (List (String × String)) → DomNode → Except Unit (Option NodeJSON)
  | 0, _, _ => .error ()
  | _ + 1, _, .text _ => .ok none
  | fuel + 1, parentCs, .elem tagName attrs cs childNodes =>
    if jsToLower tagName = "br" then .ok none
    else
      let figmaNodeId := getAttr attrs "data-figma-id"
      let component := selectComponent figmaNodeId componentMappings
      let componentName := getComponentName tagName cs childNodes
      let style := getElementResponsiveStyles (uaRes.map (fun f => f tagName)) tagName
        ((getAttr attrs "class").getD "") (getAttr attrs "style") cs parentCs designTokens
      let elementJSON : NodeJSON :=
        .mk componentName (getElementAttributes attrs) [] [] style
      let recur := convertHTMLToComposableJSON uaRes componentMappings designTokens fuel (some cs)
      match component with
      | some c =>
        if c.nodeId ≠ "" then .ok (some (handleCustomComponents elementJSON c))
        else Except.map some
          (convertElse recur tagName attrs cs childNodes componentName elementJSON)
      | none => Except.map some
          (convertElse recur tagName attrs cs childNodes componentName elementJSON)
termination_by structural fuel _ _ => fuel

/-! ## Basic lemmas about the embedded operations -/

/-- The combined-mode inclusion of `getAppliedStyles` is, definitionally,
the boolean OR of the two single-mode inclusions. -/
theorem includeProp_or (ps : Option (List (String × String))) (ua : String → String)
    (prop val : String) :
    includeProp "uaDiffPlusInherited" ps ua prop val =
      (includeProp "uaDiff" ps ua prop val || includeProp "inheritedOnly" ps ua prop val) := rfl

/-- The full keep condition distributes accordingly over the OR. -/
theorem keepProp_or (ps : Option (List (String × String))) (ua : String → String)
    (wl : List String) (pv : String × String) :
    keepProp "uaDiffPlusInherited" ps ua wl pv =
      (keepProp "uaDiff" ps ua wl pv || keepProp "inheritedOnly" ps ua wl pv) := by
  have hb : ∀ (a b c d : Bool),
      (a && (b || c) && d) = (a && b && d || a && c && d) := by decide
  simp only [keepProp, includeProp_or]
  exact hb _ _ _ _

/-- C2: for every element (its computed style, parent style, user-agent
baseline and whitelist) and every computed property, inclusion of the
property under mode uaDiffPlusInherited holds exactly when inclusion
under mode uaDiff or inclusion under mode inheritedOnly holds: the
combined mode is the logical OR of the two single modes. -/
theorem uaDiffPlusInherited_is_or (cs : List (String × String))
    (ps : Option (List (String × String))) (ua : String → String)
    (wl : List String) (prop val : String) :
    (prop, val) ∈ collectKebab cs ps ua "uaDiffPlusInherited" wl ↔
      ((prop, val) ∈ collectKebab cs ps ua "uaDiff" wl ∨
       (prop, val) ∈ collectKebab cs ps ua "inheritedOnly" wl) := by
  simp only [collectKebab, List.mem_filter, keepProp_or, Bool.or_eq_true]
  tauto

/-- C4 counterexample: when the offscreen baseline context cannot be
created, the baseline-dependent style lookup does not return an empty
snapshot — it throws (propagates the error), contradicting the claim at
this concrete input (a computed style holding color:red, which under an
empty snapshot would have been reported as non-default and returned). -/
theorem baseline_failure_throws :
    getAppliedStylesTry (Except.error ()) [("color", "red")] none STYLE_MODE
      SUPPORTED_PROPS "DIV" "" = Except.error () := rfl

/-- C4 (amended): when the offscreen baseline context cannot be created,
`getAppliedStyles` throws, and the try/catch of
`getElementResponsiveStyles` catches the error and returns fully empty
style maps for all breakpoints — the conversion degrades to emitting no
computed, additional or inline styles for the element rather than
aborting, and no property is treated as non-default. -/
theorem responsive_styles_empty_on_baseline_failure (tagName classAttr : String)
    (styleAttr : Option String) (cs : List (String × String))
    (parentCs : Option (List (String × String))) (designTokens : List (String × String)) :
    getElementResponsiveStyles (Except.error ()) tagName classAttr styleAttr cs
      parentCs designTokens = ⟨[], [], []⟩ := rfl

/-- C5 counterexample: the derived filename route for the page URL
https://example.com:8080/blog/post-1/ is not the claimed
example.com_8080_blog_post-1 — the special-character removal also
deletes the dots of the hostname and deletes the path slashes outright
instead of turning them into separators. -/
theorem pageRoute_claimed_value_wrong :
    getPageRoute "example.com" "8080" "/blog/post-1/" ≠ "example.com_8080_blog_post-1" := by
  decide

/-- C5 (amended): the derived route for
https://example.com:8080/blog/post-1/ is examplecom_8080_blogpost-1 and
for https://example.com/ it is examplecom_root (host and port
underscore-joined, pathname stripped of outer slashes with root as the
empty-path default; every remaining character outside letters, digits,
underscore and hyphen — including the hostname dots and interior path
slashes — is deleted, and a route starting with a digit is prefixed with
page_, as the third equation shows). -/
theorem pageRoute_examples :
    getPageRoute "example.com" "8080" "/blog/post-1/" = "examplecom_8080_blogpost-1" ∧
    getPageRoute "example.com" "" "/" = "examplecom_root" ∧
    getPageRoute "1.example.com" "" "/x" = "page_1examplecom_x" := by
  decide

/-- Splitting a list that starts with a separator-free block followed by
a separator peels off exactly that block. -/
theorem splitOnCharAux_append (sep : Char) (p : List Char) :
    ∀ (acc rest : List Char), sep ∉ p →
      splitOnCharAux sep (p ++ sep :: rest) acc =
        (acc.reverse ++ p) :: splitOnCharL sep rest := by
  induction p with
  | nil =>
    intro acc rest _
    simp [splitOnCharAux, splitOnCharL]
  | cons c cs ih =>
    intro acc rest hp
    have hc : ¬ (c = sep) := fun h => hp (by simp [h])
    simp only [List.cons_append, splitOnCharAux, if_neg hc, List.append_eq]
    rw [ih (c :: acc) rest (fun h => hp (List.mem_cons_of_mem _ h))]
    simp

/-- Top-level version of `splitOnCharAux_append`. -/
theorem splitOnCharL_append (sep : Char) (p rest : List Char) (hp : sep ∉ p) :
    splitOnCharL sep (p ++ sep :: rest) = p :: splitOnCharL sep rest := by
  have h := splitOnCharAux_append sep p [] rest hp
  simpa [splitOnCharL] using h

/-- C10: for every inline style declaration of the shape
"p : v : rest" whose first two segments are colon-free, the parser keeps
only the first two segments: the stored property is the camel-cased trim
of the text before the first colon, the stored value is the trimmed text
between the first and second colon, and everything after the second
colon (as in url(https://...)) is dropped. -/
theorem inline_value_between_first_two_colons (p v rest : List Char)
    (hp : ':' ∉ p) (hv : ':' ∉ v)
    (hptrim : trimL p ≠ []) (hvtrim : trimL v ≠ []) :
    parseDeclaration (p ++ (':' :: (v ++ (':' :: rest)))) =
      some (⟨camelL (trimL p)⟩, ⟨trimL v⟩) := by
  unfold parseDeclaration
  rw [splitOnCharL_append ':' p (v ++ ':' :: rest) hp,
    splitOnCharL_append ':' v rest hv]
  simp [hptrim, hvtrim]

/-- C10 witness: the declaration background:url(https://x) stores value
url(https — the text between the first two colons — and drops the
remainder. -/
theorem inline_value_witness :
    parseDeclaration ("background".data ++ (':' :: ("url(https".data ++ (':' :: "//x)".data)))) =
      some (⟨camelL (trimL "background".data)⟩, ⟨trimL "url(https".data⟩) :=
  inline_value_between_first_two_colons "background".data "url(https".data "//x)".data
    (by decide) (by decide) (by decide) (by decide)

/-- The head surviving a `dropWhile` fails the predicate. -/
theorem dropWhile_cons_head_false {α : Type} (q : α → Bool) :
    ∀ (l : List α) (c : α) (t : List α), l.dropWhile q = c :: t → q c = false := by
  intro l
  induction l with
  | nil => intro c t h; simp [List.dropWhile] at h
  | cons a as ih =>
    intro c t h
    rw [List.dropWhile_cons] at h
    by_cases hq : q a = true
    · rw [if_pos hq] at h; exact ih c t h
    · rw [if_neg hq] at h
      cases h
      simpa using hq


/-- Stripping a trailing dot run can never produce the literal
three-dot string: either nothing was stripped (and then the input would
itself have carried a stripped run), or the stripped result no longer
ends in a dot. -/
theorem stripTrailingDots_ne_dots (s : String) : stripTrailingDots s ≠ "..." := by
  simp only [stripTrailingDots]
  by_cases h : 3 ≤ ((s.data.reverse).takeWhile (fun c => c = '.')).length
  · rw [if_pos h]
    intro heq
    have hdata : ((s.data.reverse).dropWhile (fun c => c = '.')).reverse = "...".data :=
      congrArg String.data heq
    have h2 : (s.data.reverse).dropWhile (fun c => c = '.') = ['.', '.', '.'] := by
      have h3 := congrArg List.reverse hdata
      simpa using h3
    have h4 := dropWhile_cons_head_false (fun c => c = '.') (s.data.reverse) '.' ['.', '.'] h2
    simp at h4
  · rw [if_neg h]
    intro heq
    subst heq
    exact h (by decide)

/-- C6: for every text container carrying a CSS clamping/truncation
indicator (and thus possibly rendered visually truncated), whose
complete text content carries no surrounding whitespace and does not
strip to nothing, the text value produced by the handleTextNode pipeline
equals the element's complete (non-truncated) text content with any
trailing run of three or more literal dots stripped: the rendered,
ellipsis-clipped string plays no part, because getFullTextContent reads
the full textContent after neutralizing the truncation styles. -/
theorem truncated_text_recovered (attrs : List (String × String)) (kids : List DomNode)
    (hTrunc : hasTruncationIndicator attrs = true)
    (hTrim : jsTrim (textContentList kids) = textContentList kids)
    (hNonempty : stripTrailingDots (textContentList kids) ≠ "") :
    handleTextNode (getFullTextContent attrs kids) none =
      some (stripTrailingDots (textContentList kids)) := by
  have hfull : getFullTextContent attrs kids = textContentList kids := by
    unfold getFullTextContent
    rw [hTrunc]
    simpa using hTrim
  have hne : textContentList kids ≠ "" := by
    intro h0
    apply hNonempty
    rw [h0]
    rfl
  have hcond : ¬ (stripTrailingDots (textContentList kids) = "..." ∨
      stripTrailingDots (textContentList kids) = "") := by
    rintro (hd | hd)
    · exact stripTrailingDots_ne_dots _ hd
    · exact hNonempty hd
  rw [hfull]
  simp only [handleTextNode, hTrim]
  rw [if_pos hne, if_neg hcond]

/-- C6 witness: the claim's example input, a line-clamp-3 container with
full text "Lorem ipsum dolor sit amet consectetur" (clamped in rendering
to an ellipsis-suffixed string), yields exactly that full text. -/
theorem truncated_text_witness :
    handleTextNode
      (getFullTextContent [("class", "line-clamp-3")]
        [DomNode.text "Lorem ipsum dolor sit amet consectetur"]) none =
      some (stripTrailingDots
        (textContentList [DomNode.text "Lorem ipsum dolor sit amet consectetur"])) :=
  truncated_text_recovered [("class", "line-clamp-3")]
    [DomNode.text "Lorem ipsum dolor sit amet consectetur"]
    (by decide) (by decide) (by decide)

/-- A run of mapping entries none of which matches the correlation id
leaves the accumulated component unchanged. -/
theorem foldl_mappingStep_no_match (figmaNodeId : Option String) :
    ∀ (post : List ComponentMapping) (acc : Option Component),
      (∀ m' ∈ post, findNodeId figmaNodeId m'.nodeIds = none) →
      post.foldl (mappingStep figmaNodeId) acc = acc := by
  intro post
  induction post with
  | nil => intro acc _; rfl
  | cons c cs ih =>
    intro acc hpost
    have hc := hpost c (by simp)
    simp only [List.foldl_cons, mappingStep, hc]
    exact ih acc (fun m' hm' => hpost m' (List.mem_cons_of_mem _ hm'))

/-- C1 counterexample: an element whose correlation id n1 occurs in two
entries of the supplied component-mapping list receives the second
(later) entry's declared component name CompB, not the first matching
entry's CompA that the claimed first-match precedence would give. -/
theorem mapping_first_match_refuted :
    (convertHTMLToComposableJSON (Except.ok (fun _ _ => ""))
        [⟨[⟨"n1", []⟩], "CompA", [], "kA"⟩, ⟨[⟨"n1", []⟩], "CompB", [], "kB"⟩] []
        1 none (DomNode.elem "DIV" [("data-figma-id", "n1")] [] [])).map
      (fun r => r.map NodeJSON.type) = Except.ok (some "CompB") ∧
    ("CompB" : String) ≠ "CompA" := ⟨rfl, by decide⟩

/-- C1 (amended): for an element whose correlation id occurs in more
than one entry of the supplied component-mapping list, the mapping entry
applied is the LAST entry in list order whose nodeIds contains the
element's id, and within that entry the first matching id: the forEach
scan overwrites the accumulated component at every matching entry, so
the selected component is the one built from the last matching entry
(and the entries after it, matching none, leave it in place). -/
theorem mapping_last_match_applied (id : String) (pre post : List ComponentMapping)
    (m : ComponentMapping) (n : NodeIdEntry)
    (hm : findNodeId (some id) m.nodeIds = some n)
    (hpost : ∀ m' ∈ post, findNodeId (some id) m'.nodeIds = none) :
    selectComponent (some id) (pre ++ m :: post) = some (componentOf m n) := by
  unfold selectComponent
  rw [List.foldl_append, List.foldl_cons]
  have hstep : mappingStep (some id) (List.foldl (mappingStep (some id)) none pre) m =
      some (componentOf m n) := by
    simp [mappingStep, hm]
  rw [hstep]
  exact foldl_mappingStep_no_match (some id) post _ hpost

/-- C1 witness: a concrete instance of the amended precedence — with an
entry CompA matching id n1, a later entry CompB matching it (twice, the
first of its matching ids being the one without variants), and a final
non-matching entry CompC, the selected component comes from CompB with
the first matching id binding. -/
theorem mapping_last_match_witness :
    selectComponent (some "n1")
      ([⟨[⟨"n1", []⟩], "CompA", [], "kA"⟩] ++
        (⟨[⟨"n0", []⟩, ⟨"n1", []⟩, ⟨"n1", [("v", "1")]⟩], "CompB", [], "kB"⟩ : ComponentMapping) ::
        [⟨[⟨"n2", []⟩], "CompC", [], "kC"⟩]) =
      some (componentOf
        ⟨[⟨"n0", []⟩, ⟨"n1", []⟩, ⟨"n1", [("v", "1")]⟩], "CompB", [], "kB"⟩ ⟨"n1", []⟩) :=
  mapping_last_match_applied "n1" _ _ _ _ (by decide) (by decide)

/-- Decidable equality for Except values (used to evaluate the embedded
converter at concrete inputs). -/
instance exceptDecEq {ε α : Type} [DecidableEq ε] [DecidableEq α] :
    DecidableEq (Except ε α) := fun x y =>
  match x, y with
  | .error a, .error b =>
    if h : a = b then isTrue (by rw [h]) else isFalse (by intro he; cases he; exact h rfl)
  | .ok a, .ok b =>
    if h : a = b then isTrue (by rw [h]) else isFalse (by intro he; cases he; exact h rfl)
  | .error _, .ok _ => isFalse (fun he => Except.noConfusion he)
  | .ok _, .error _ => isFalse (fun he => Except.noConfusion he)

/-- Wrapping a conversion result in `some` can never produce the null
(line-break) result. -/
theorem map_some_ne_ok_none (x : Except Unit NodeJSON) :
    Except.map some x ≠ Except.ok none := by
  cases x <;> simp [Except.map]

/-- C3: for every element whose correlation id matches a
component-mapping entry (with a truthy matched id and a nonempty
declared component name), the emitted node's type equals that entry's
declared component name (codeComponentName) regardless of the
Classifier's verdict, and the converter performs no independent
recursion into the element's children: the node's slots stay empty. -/
theorem custom_mapping_overrides (uaRes : Except Unit (String → String → String))
    (componentMappings : List ComponentMapping) (designTokens : List (String × String))
    (fuel : Nat) (parentCs : Option (List (String × String)))
    (tagName : String) (attrs cs : List (String × String)) (childNodes : List DomNode)
    (c : Component)
    (hbr : jsToLower tagName ≠ "br")
    (hsel : selectComponent (getAttr attrs "data-figma-id") componentMappings = some c)
    (hid : c.nodeId ≠ "")
    (hname : c.codeComponentName ≠ "") :
    (convertHTMLToComposableJSON uaRes componentMappings designTokens (fuel + 1) parentCs
        (DomNode.elem tagName attrs cs childNodes)).map
      (fun r => (r.map NodeJSON.type, r.map NodeJSON.slots)) =
      Except.ok (some c.codeComponentName, some []) := by
  simp only [convertHTMLToComposableJSON]
  rw [if_neg hbr, hsel]
  simp only [if_pos hid]
  simp [Except.map, handleCustomComponents, hname, NodeJSON.setType, NodeJSON.setProps,
    NodeJSON.type, NodeJSON.slots]

/-- C3 witness: a SECTION with correlation id n9 matched by an entry
declaring HeroCard (whose propMappings even inject a children slot
descriptor) is emitted with type HeroCard and empty slots, its text
child never recursed. -/
theorem custom_mapping_witness :
    (convertHTMLToComposableJSON (Except.ok (fun _ _ => ""))
        [⟨[⟨"n9", [("size", "lg")]⟩], "HeroCard",
          [("children", PropVal.slotVal "ghost")], "key9"⟩] []
        1 none (DomNode.elem "SECTION" [("data-figma-id", "n9")] []
          [DomNode.text "inner"])).map
      (fun r => (r.map NodeJSON.type, r.map NodeJSON.slots)) =
      Except.ok (some "HeroCard", some []) :=
  custom_mapping_overrides (Except.ok (fun _ _ => ""))
    [⟨[⟨"n9", [("size", "lg")]⟩], "HeroCard",
      [("children", PropVal.slotVal "ghost")], "key9"⟩] []
    0 none "SECTION" [("data-figma-id", "n9")] [] [DomNode.text "inner"]
    ⟨"HeroCard", [("children", PropVal.slotVal "ghost")], "n9", [("size", "lg")], "key9"⟩
    (by decide) (by decide) (by decide) (by decide)

/-- C9: the converter returns null exactly when the input element's tag
name is br (case-insensitively); for every other element a successful
conversion returns a non-null node (a thrown error, as for a video
without sources or an exhausted recursion budget, is an error value and
never the null result), so a null child result in the recursion always
denotes a line break and never a silently dropped element. -/
theorem null_result_iff_br (uaRes : Except Unit (String → String → String))
    (componentMappings : List ComponentMapping) (designTokens : List (String × String))
    (fuel : Nat) (parentCs : Option (List (String × String)))
    (tagName : String) (attrs cs : List (String × String)) (childNodes : List DomNode) :
    convertHTMLToComposableJSON uaRes componentMappings designTokens (fuel + 1) parentCs
        (DomNode.elem tagName attrs cs childNodes) = Except.ok none ↔
      jsToLower tagName = "br" := by
  constructor
  · intro h
    by_contra hbr
    simp only [convertHTMLToComposableJSON] at h
    rw [if_neg hbr] at h
    rcases hC : selectComponent (getAttr attrs "data-figma-id") componentMappings with _ | c
    · rw [hC] at h
      dsimp only at h
      exact map_some_ne_ok_none _ h
    · rw [hC] at h
      dsimp only at h
      by_cases hid : c.nodeId ≠ ""
      · rw [if_pos hid] at h
        simp at h
      · rw [if_neg hid] at h
        exact map_some_ne_ok_none _ h
  · intro h
    simp only [convertHTMLToComposableJSON]
    rw [if_pos h]

/-- A line-break-named node is never a text node. -/
theorem brName_not_text (c : DomNode) (h : jsToLower c.nodeName = "br") :
    c.isTextNode = false := by
  cases c with
  | text s =>
    rw [show (DomNode.text s).nodeName = "#text" from rfl] at h
    exact absurd h (by decide)
  | elem t a cc k => rfl

/-- The saw-text flag returned by the line-break merge loop records
exactly whether the child list contains a direct text node. -/
theorem brLoop_saw (recur : DomNode → Except Unit (Option NodeJSON)) (fullText : String) :
    ∀ (l : List DomNode) (acc : Option String) (items : List (Sum Unit NodeJSON))
      (accF : Option String) (saw : Bool),
      brLoop recur fullText l acc = .ok (items, accF, saw) →
      saw = l.any DomNode.isTextNode := by
  intro l
  induction l with
  | nil =>
    intro acc items accF saw h
    simp only [brLoop] at h
    cases h
    rfl
  | cons c rest ih =>
    intro acc items accF saw h
    simp only [brLoop] at h
    by_cases hbr : jsToLower c.nodeName = "br"
    · rw [if_pos hbr] at h
      have hsaw := ih acc items accF saw h
      simp [List.any_cons, brName_not_text c hbr, hsaw]
    · rw [if_neg hbr] at h
      cases c with
      | text s =>
        dsimp only at h
        rcases hrec : brLoop recur fullText rest
            (match handleTextNode fullText acc with
             | some t => some t
             | none => acc) with e | trip
        · rw [hrec] at h
          simp at h
        · obtain ⟨items', accF', saw'⟩ := trip
          rw [hrec] at h
          simp only at h
          cases h
          simp [List.any_cons, DomNode.isTextNode]
      | elem t a cc k =>
        dsimp only at h
        rcases hr : recur (DomNode.elem t a cc k) with e | r
        · rw [hr] at h
          simp at h
        · rw [hr] at h
          dsimp only at h
          rcases hrec : brLoop recur fullText rest acc with e | trip
          · rw [hrec] at h
            simp at h
          · obtain ⟨items', accF', saw'⟩ := trip
            rw [hrec] at h
            simp only at h
            cases h
            have hsaw := ih acc items' accF saw hrec
            simp [List.any_cons, DomNode.isTextNode, hsaw]

/-- Attaching children never changes the node's type. -/
theorem attachChildren_type (j : NodeJSON) (ch : List NodeJSON) :
    (attachChildren j ch).type = j.type := by
  unfold attachChildren
  split
  · rfl
  · cases j
    rfl

/-- C8 counterexample: a SECTION whose direct children are a SPAN and a
BR (no direct text node) enters the line-break merge branch, yet its
emitted type stays section — the Classifier's verdict is not discarded,
contradicting the claim that the branch always forces box. -/
theorem br_merge_keeps_type_without_text :
    (convertHTMLToComposableJSON (Except.ok (fun _ _ => "")) [] [] 10 none
        (DomNode.elem "SECTION" [] [] [DomNode.elem "SPAN" [] [] [DomNode.text "a"],
          DomNode.elem "BR" [] [] []])).map (fun r => r.map NodeJSON.type) =
      Except.ok (some "section") ∧ ("section" : String) ≠ "box" := ⟨rfl, by decide⟩

/-- C8 (amended): for every non-rich-text element whose direct child
nodes include a line-break (br) node (and that is not resolved through a
component mapping), the line-break merge branch runs, and the emitted
node's type is forced to box exactly when the element also has at least
one direct text-node child; with no direct text child the Classifier's
verdict is kept. -/
theorem br_merge_box_iff_text_child (uaRes : Except Unit (String → String → String))
    (componentMappings : List ComponentMapping) (designTokens : List (String × String))
    (fuel : Nat) (parentCs : Option (List (String × String)))
    (tagName : String) (attrs cs : List (String × String)) (childNodes : List DomNode)
    (node : NodeJSON)
    (hbr : jsToLower tagName ≠ "br")
    (hsel : ∀ c, selectComponent (getAttr attrs "data-figma-id") componentMappings = some c →
      c.nodeId = "")
    (hasBr : childNodes.any (fun n => jsToLower n.nodeName = "br") = true)
    (hrte : HTML_RTE_COMPONENTS.contains (getComponentName tagName cs childNodes) = false)
    (hconv : convertHTMLToComposableJSON uaRes componentMappings designTokens (fuel + 1) parentCs
      (DomNode.elem tagName attrs cs childNodes) = Except.ok (some node)) :
    node.type = (if childNodes.any DomNode.isTextNode then "box"
      else getComponentName tagName cs childNodes) := by
  have hne : childNodes.isEmpty = false := by
    cases childNodes with
    | nil => simp at hasBr
    | cons a l => rfl
  simp only [convertHTMLToComposableJSON] at hconv
  rw [if_neg hbr] at hconv
  have helse : ∀ (j : NodeJSON), Except.map some
      (convertElse (convertHTMLToComposableJSON uaRes componentMappings designTokens fuel (some cs))
        tagName attrs cs childNodes (getComponentName tagName cs childNodes) j) =
        Except.ok (some node) → j.slots = j.slots → j.type = getComponentName tagName cs childNodes →
      node.type = (if childNodes.any DomNode.isTextNode then "box"
        else getComponentName tagName cs childNodes) := by
    intro j hmap _ htype
    rcases hE : convertElse (convertHTMLToComposableJSON uaRes componentMappings designTokens fuel
        (some cs)) tagName attrs cs childNodes (getComponentName tagName cs childNodes) j
      with e | jj
    · rw [hE] at hmap
      simp [Except.map] at hmap
    · rw [hE] at hmap
      simp only [Except.map] at hmap
      cases hmap
      simp only [convertElse] at hE
      rw [if_neg (fun hc => by rw [hne] at hc; exact Bool.noConfusion hc.2.1)] at hE
      rw [if_pos ⟨hasBr, by rw [hrte]; exact Bool.false_ne_true⟩] at hE
      rcases hloop : brLoop (convertHTMLToComposableJSON uaRes componentMappings designTokens fuel
          (some cs)) (getFullTextContent attrs childNodes) childNodes none with e | trip
      · rw [hloop] at hE
        simp at hE
      · obtain ⟨items, accText, sawText⟩ := trip
        rw [hloop] at hE
        simp only at hE
        cases hE
        have hsaw := brLoop_saw _ _ childNodes none items accText sawText hloop
        rw [attachChildren_type, ← hsaw]
        cases sawText with
        | false => simpa [NodeJSON.setType] using htype
        | true => cases j; rfl
  rcases hC : selectComponent (getAttr attrs "data-figma-id") componentMappings with _ | c
  · rw [hC] at hconv
    dsimp only at hconv
    exact helse _ hconv rfl rfl
  · rw [hC] at hconv
    dsimp only at hconv
    rw [if_neg (fun hd => hd (hsel c hC))] at hconv
    exact helse _ hconv rfl rfl

/-- C8 witness: the amended statement at a SECTION with children text,
br, span — a direct text child is present, so the emitted type is box
(the if-condition on the right evaluates accordingly). -/
theorem br_merge_box_witness :
    (NodeJSON.mk "box" [] [("children", PropVal.slotVal slotUid)]
        [(slotUid, [NodeJSON.mk "text" [] [("text", PropVal.stringVal (some "a"))] [] ⟨[], [], []⟩])]
        ⟨[], [], []⟩).type =
      (if ([DomNode.text "hello", DomNode.elem "BR" [] [] [],
          DomNode.elem "SPAN" [] [] [DomNode.text "a"]] : List DomNode).any DomNode.isTextNode
        then "box"
        else getComponentName "SECTION" [] [DomNode.text "hello",
          DomNode.elem "BR" [] [] [], DomNode.elem "SPAN" [] [] [DomNode.text "a"]]) :=
  br_merge_box_iff_text_child (Except.ok (fun _ _ => "")) [] [] 9 none "SECTION" [] []
    [DomNode.text "hello", DomNode.elem "BR" [] [] [], DomNode.elem "SPAN" [] [] [DomNode.text "a"]]
    (NodeJSON.mk "box" [] [("children", PropVal.slotVal slotUid)]
      [(slotUid, [NodeJSON.mk "text" [] [("text", PropVal.stringVal (some "a"))] [] ⟨[], [], []⟩])]
      ⟨[], [], []⟩)
    (by decide) (fun c hc => nomatch hc) (by decide) (by decide) rfl

/-! ## The children/slot invariant (claim C7)

A node "has child nodes" exactly when some slot entry carries a nonempty
child list; the invariant states this happens iff the node carries a
`props.children` descriptor of slot type referencing a nonempty slots
entry, and it is required hereditarily of every node of the emitted
tree. -/

/-- The per-node iff: some slot entry is nonempty exactly when the
`children` property is a slot descriptor whose key names a nonempty
slots entry. -/
def localOk (n : NodeJSON) : Bool :=
  (n.slots.any (fun p => !p.2.isEmpty)) ==
    (match findEntry n.props "children" with
     | some (PropVal.slotVal k) => n.slots.any (fun p => p.1 == k && !p.2.isEmpty)
     | _ => false)

mutual
/-- The invariant holding at the node and hereditarily below it. -/
def nodeOk : NodeJSON → Bool
  | .mk t a p slots st => localOk (.mk t a p slots st) && slotsOk slots
/-- `nodeOk` across a slot map. -/
def slotsOk : List (String × List NodeJSON) → Bool
  | [] => true
  | (_, l) :: rest => nodesOk l && slotsOk rest
/-- `nodeOk` across a child list. -/
def nodesOk : List NodeJSON → Bool
  | [] => true
  | n :: rest => nodeOk n && nodesOk rest
end

/-- A node with an empty slot map satisfies the invariant outright:
it has no child nodes, and no slot descriptor of its props can name a
nonempty slots entry. -/
theorem nodeOk_empty_slots (n : NodeJSON) (h : n.slots = []) : nodeOk n = true := by
  cases n with
  | mk t a p s st =>
    simp only [NodeJSON.slots] at h
    subst h
    simp only [nodeOk, localOk, slotsOk, NodeJSON.slots, NodeJSON.props, List.any_nil,
      Bool.and_true]
    cases hf : findEntry p "children" with
    | none => rfl
    | some v => cases v <;> rfl

/-- Updating a key and then looking it up yields the new value. -/
theorem find?_append_key {α : Type} (k : String) (v : α) :
    ∀ (l : List (String × α)), (∀ p ∈ l, ¬ (p.1 = k)) →
      (l ++ [(k, v)]).find? (fun p => p.1 = k) = some (k, v) := by
  intro l
  induction l with
  | nil => intro _; simp
  | cons q rest ih =>
    intro h
    have hq := h q (by simp)
    rw [List.cons_append, List.find?_cons_of_neg _ (by simpa using hq)]
    exact ih (fun p hp => h p (List.mem_cons_of_mem _ hp))

/-- `findEntry` after `setEntry` at the same key. -/
theorem findEntry_setEntry {α : Type} (m : List (String × α)) (k : String) (v : α) :
    findEntry (setEntry m k v) k = some v := by
  unfold findEntry setEntry
  rw [find?_append_key k v _ (fun p hp => by
    have hmem := List.of_mem_filter hp
    simpa using hmem)]
  rfl

/-- `findEntry` after `setEntry` at a different key. -/
theorem findEntry_setEntry_ne {α : Type} (m : List (String × α)) (k : String) (v : α)
    (k' : String) (h : k' ≠ k) : findEntry (setEntry m k v) k' = findEntry m k' := by
  unfold findEntry setEntry
  induction m with
  | nil =>
    simp only [List.filter_nil, List.nil_append]
    rw [List.find?_cons_of_neg _ (by simpa using fun hh => h hh.symm)]
  | cons q rest ih =>
    by_cases hqk : q.1 = k
    · rw [List.filter_cons_of_neg (by simpa using hqk)]
      rw [List.find?_cons_of_neg _
        (by simpa using fun hq' : q.1 = k' => h (hq'.symm.trans hqk))]
      exact ih
    · rw [List.filter_cons_of_pos (by simpa using hqk)]
      by_cases hqk' : q.1 = k'
      · rw [List.cons_append, List.find?_cons_of_pos _ (by simpa using hqk'),
          List.find?_cons_of_pos _ (by simpa using hqk')]
      · rw [List.cons_append, List.find?_cons_of_neg _ (by simpa using hqk'),
          List.find?_cons_of_neg _ (by simpa using hqk')]
        exact ih

/-- `setProps` leaves the slot map alone. -/
theorem setProps_slots (n : NodeJSON) (p : List (String × PropVal)) :
    (n.setProps p).slots = n.slots := by
  cases n
  rfl

/-- `setProps` installs its props. -/
theorem setProps_props (n : NodeJSON) (p : List (String × PropVal)) :
    (n.setProps p).props = p := by
  cases n
  rfl

/-- `setType` leaves the slot map alone. -/
theorem setType_slots (n : NodeJSON) (t : String) :
    (n.setType t).slots = n.slots := by
  cases n
  rfl

/-- `setAttrs` leaves the slot map alone. -/
theorem setAttrs_slots (n : NodeJSON) (a : List (String × String)) :
    (n.setAttrs a).slots = n.slots := by
  cases n
  rfl

/-- `setAttrs` leaves the props alone. -/
theorem setAttrs_props (n : NodeJSON) (a : List (String × String)) :
    (n.setAttrs a).props = n.props := by
  cases n
  rfl

/-- `handleCustomComponents` leaves the slot map alone. -/
theorem handleCustomComponents_slots (e : NodeJSON) (c : Component) :
    (handleCustomComponents e c).slots = e.slots := by
  unfold handleCustomComponents
  rw [setProps_slots]
  by_cases hn : c.codeComponentName ≠ ""
  · rw [if_pos hn, setType_slots]
  · rw [if_neg hn]

/-- `handleButtonElement` leaves the slot map alone. -/
theorem handleButtonElement_slots (t : String) (j : NodeJSON) :
    (handleButtonElement t j).slots = j.slots := by
  unfold handleButtonElement
  rw [setProps_slots]

/-- `handleLinkElement` leaves the slot map alone. -/
theorem handleLinkElement_slots (tag : String) (attrs : List (String × String))
    (kids : List DomNode) (j : NodeJSON) :
    (handleLinkElement tag attrs kids j).slots = j.slots := by
  unfold handleLinkElement
  by_cases ht : tag ≠ "A"
  · rw [if_pos ht]
  · rw [if_neg ht]
    rw [setProps_slots]

/-- `handleImageElement` leaves the slot map alone. -/
theorem handleImageElement_slots (tag : String) (attrs : List (String × String))
    (j : NodeJSON) : (handleImageElement tag attrs j).slots = j.slots := by
  unfold handleImageElement
  by_cases ht : tag ≠ "IMG"
  · rw [if_pos ht]
  · rw [if_neg ht]
    rw [setProps_slots]

/-- A successful `handleVideoElement` leaves the slot map alone. -/
theorem handleVideoElement_slots (tag : String) (kids : List DomNode)
    (j j' : NodeJSON) (h : handleVideoElement tag kids j = .ok j') :
    j'.slots = j.slots := by
  unfold handleVideoElement at h
  by_cases ht : tag ≠ "VIDEO"
  · rw [if_pos ht] at h
    cases h
    rfl
  · rw [if_neg ht] at h
    rcases hs : sourceElemsList kids with _ | ⟨sa, rest⟩
    · rw [hs] at h
      simp at h
    · rw [hs] at h
      dsimp only at h
      cases h
      rw [setAttrs_slots]

/-- The children-attachment epilogue establishes the invariant at the
node: an empty child list leaves the (empty) slot map alone, a nonempty
one installs exactly the referenced nonempty slot. -/
theorem attachChildren_nodeOk (e : NodeJSON) (children : List NodeJSON)
    (hslots : e.slots = []) (hch : nodesOk children = true) :
    nodeOk (attachChildren e children) = true := by
  unfold attachChildren
  by_cases hc : children.isEmpty
  · rw [if_pos hc]
    exact nodeOk_empty_slots e hslots
  · rw [if_neg hc]
    rw [Bool.not_eq_true] at hc
    cases e with
    | mk t a p s st =>
      simp only [NodeJSON.slots] at hslots
      subst hslots
      show nodeOk (NodeJSON.mk t a (setEntry p "children" (PropVal.slotVal slotUid))
        ([] ++ [(slotUid, children)]) st) = true
      simp only [nodeOk, slotsOk, nodesOk, localOk, NodeJSON.slots, NodeJSON.props,
        List.nil_append, List.any_cons, List.any_nil, findEntry_setEntry, hch, hc,
        Bool.and_true, Bool.or_false, beq_self_eq_true, Bool.true_and]

/-- Every node produced by the default child loop satisfies the
invariant, provided every successful recursive conversion does. -/
theorem defaultLoop_nodesOk (recur : DomNode → Except Unit (Option NodeJSON))
    (hrec : ∀ dn node, recur dn = .ok (some node) → nodeOk node = true) :
    ∀ (l : List DomNode) (children : List NodeJSON) (saw : Bool),
      defaultLoop recur l = .ok (children, saw) → nodesOk children = true := by
  intro l
  induction l with
  | nil =>
    intro ch saw h
    simp only [defaultLoop] at h
    cases h
    rfl
  | cons c rest ih =>
    intro ch saw h
    simp only [defaultLoop] at h
    cases c with
    | text s =>
      dsimp only at h
      rcases hd : defaultLoop recur rest with e | pr
      · rw [hd] at h
        simp at h
      · obtain ⟨kids, saw'⟩ := pr
        rw [hd] at h
        simp only at h
        cases h
        exact ih _ _ hd
    | elem t a cc k =>
      dsimp only at h
      rcases hr : recur (DomNode.elem t a cc k) with e | r
      · rw [hr] at h
        simp at h
      · rw [hr] at h
        dsimp only at h
        rcases hd : defaultLoop recur rest with e | pr
        · rw [hd] at h
          simp at h
        · obtain ⟨kids, saw'⟩ := pr
          rw [hd] at h
          simp only at h
          cases h
          cases r with
          | none => exact ih _ _ hd
          | some j =>
            simp only [nodesOk, hrec _ j hr, ih _ _ hd, Bool.and_self]

/-- Every node recorded by the line-break merge loop as a recursive
conversion result satisfies the invariant, provided every successful
recursive conversion does. -/
theorem brLoop_items_nodeOk (recur : DomNode → Except Unit (Option NodeJSON))
    (fullText : String)
    (hrec : ∀ dn node, recur dn = .ok (some node) → nodeOk node = true) :
    ∀ (l : List DomNode) (acc : Option String) (items : List (Sum Unit NodeJSON))
      (accF : Option String) (saw : Bool),
      brLoop recur fullText l acc = .ok (items, accF, saw) →
      ∀ j, Sum.inr j ∈ items → nodeOk j = true := by
  intro l
  induction l with
  | nil =>
    intro acc items accF saw h
    simp only [brLoop] at h
    cases h
    intro j hj
    simp at hj
  | cons c rest ih =>
    intro acc items accF saw h
    simp only [brLoop] at h
    by_cases hbr : jsToLower c.nodeName = "br"
    · rw [if_pos hbr] at h
      exact ih acc items accF saw h
    · rw [if_neg hbr] at h
      cases c with
      | text s =>
        dsimp only at h
        rcases hrec2 : brLoop recur fullText rest
            (match handleTextNode fullText acc with
             | some t => some t
             | none => acc) with e | trip
        · rw [hrec2] at h
          simp at h
        · obtain ⟨items', accF', saw'⟩ := trip
          rw [hrec2] at h
          simp only at h
          cases h
          intro j hj
          have hall := ih _ items' accF saw' hrec2
          by_cases hpush : (match rest.head? with
              | none => true
              | some nxt => !nxt.isTextNode && jsToLower nxt.nodeName ≠ "br") = true
          · rw [if_pos hpush] at hj
            rcases List.mem_cons.mp hj with heq | hmem
            · exact absurd heq (by simp)
            · exact hall j hmem
          · rw [if_neg hpush] at hj
            exact hall j hj
      | elem t a cc k =>
        dsimp only at h
        rcases hr : recur (DomNode.elem t a cc k) with e | r
        · rw [hr] at h
          simp at h
        · rw [hr] at h
          dsimp only at h
          rcases hrec2 : brLoop recur fullText rest acc with e | trip
          · rw [hrec2] at h
            simp at h
          · obtain ⟨items', accF', saw'⟩ := trip
            rw [hrec2] at h
            simp only at h
            cases h
            intro j hj
            have hall := ih acc items' accF saw hrec2
            cases r with
            | none => exact hall j hj
            | some jj =>
              rcases List.mem_cons.mp hj with heq | hmem
              · cases heq
                exact hrec _ _ hr
              · exact hall j hmem

/-- The substituted item list of the line-break merge branch satisfies
`nodesOk` when the shared merged-text node does and every recorded
recursive result does. -/
theorem nodesOk_items_map (childJSON : NodeJSON) (hcj : nodeOk childJSON = true) :
    ∀ (items : List (Sum Unit NodeJSON)),
      (∀ j, Sum.inr j ∈ items → nodeOk j = true) →
      nodesOk (items.map (fun it =>
        match it with
        | Sum.inl _ => childJSON
        | Sum.inr j => j)) = true := by
  intro items
  induction items with
  | nil => intro _; rfl
  | cons it rest ih =>
    intro hall
    cases it with
    | inl u =>
      simp only [List.map_cons, nodesOk, hcj, Bool.true_and]
      exact ih (fun j hj => hall j (List.mem_cons_of_mem _ hj))
    | inr j =>
      simp only [List.map_cons, nodesOk, hall j (by simp), Bool.true_and]
      exact ih (fun j' hj' => hall j' (List.mem_cons_of_mem _ hj'))

/-- Every node successfully produced by the non-custom-component body
satisfies the children/slot invariant, provided every successful
recursive child conversion does and the incoming node has an empty slot
map (as the freshly initialized elementJSON always has). -/
theorem convertElse_nodeOk (recur : DomNode → Except Unit (Option NodeJSON))
    (tagName : String) (attrs cs : List (String × String)) (childNodes : List DomNode)
    (componentName : String) (e j : NodeJSON)
    (hrec : ∀ dn node, recur dn = .ok (some node) → nodeOk node = true)
    (hslots : e.slots = [])
    (hE : convertElse recur tagName attrs cs childNodes componentName e = .ok j) :
    nodeOk j = true := by
  simp only [convertElse] at hE
  split at hE
  · -- div with text and no child nodes
    cases hE
    apply attachChildren_nodeOk _ _ hslots
    split
    · simp only [nodesOk, Bool.and_true]
      apply nodeOk_empty_slots
      rw [setProps_slots]
      rfl
    · rfl
  · split at hE
    · -- line-break merge branch
      rcases hloop : brLoop recur (getFullTextContent attrs childNodes) childNodes none
        with er | trip
      · rw [hloop] at hE
        simp at hE
      · obtain ⟨items, accText, sawText⟩ := trip
        rw [hloop] at hE
        simp only at hE
        cases hE
        apply attachChildren_nodeOk
        · cases sawText <;> simp [setType_slots, hslots]
        · apply nodesOk_items_map
          · apply nodeOk_empty_slots
            rfl
          · exact brLoop_items_nodeOk recur _ hrec childNodes none items accText sawText hloop
    · split at hE
      · -- rich-text terminal
        cases hE
        apply nodeOk_empty_slots
        rw [setProps_slots]
        exact hslots
      · split at hE
        · -- svg terminal
          cases hE
          apply nodeOk_empty_slots
          rw [setProps_slots]
          exact hslots
        · -- button/anchor chain, then media or default
          have hj2slots : (if jsToLower tagName = "a" then
              handleLinkElement tagName attrs childNodes
                (if jsToLower tagName = "button" then
                  handleButtonElement (getFullTextContent attrs childNodes) e
                else e)
            else
              if jsToLower tagName = "button" then
                handleButtonElement (getFullTextContent attrs childNodes) e
              else e).slots = [] := by
            by_cases hb : jsToLower tagName = "button" <;>
              by_cases ha : jsToLower tagName = "a" <;>
              simp [ha, hb, handleLinkElement_slots, handleButtonElement_slots, hslots]
          split at hE
          · -- media terminal
            rcases hv : handleVideoElement tagName childNodes
                (handleImageElement tagName attrs
                  (if jsToLower tagName = "a" then
                    handleLinkElement tagName attrs childNodes
                      (if jsToLower tagName = "button" then
                        handleButtonElement (getFullTextContent attrs childNodes) e
                      else e)
                  else
                    if jsToLower tagName = "button" then
                      handleButtonElement (getFullTextContent attrs childNodes) e
                    else e)) with er | jv
            · rw [hv] at hE
              simp at hE
            · rw [hv] at hE
              simp only at hE
              cases hE
              apply nodeOk_empty_slots
              rw [handleVideoElement_slots _ _ _ _ hv, handleImageElement_slots]
              exact hj2slots
          · -- default branch
            rcases hd : defaultLoop recur childNodes with er | pr
            · rw [hd] at hE
              simp at hE
            · obtain ⟨children, sawTextChild⟩ := pr
              rw [hd] at hE
              simp only at hE
              cases hE
              apply attachChildren_nodeOk
              · split
                · rw [setProps_slots]
                  exact hj2slots
                · exact hj2slots
              · exact defaultLoop_nodesOk recur hrec childNodes children sawTextChild hd

/-- Lifting `convertElse_nodeOk` through the `Except.map some` wrapper. -/
theorem map_some_convertElse_nodeOk (recur : DomNode → Except Unit (Option NodeJSON))
    (tagName : String) (attrs cs : List (String × String)) (childNodes : List DomNode)
    (componentName : String) (e node : NodeJSON)
    (hrec : ∀ dn n, recur dn = .ok (some n) → nodeOk n = true)
    (hslots : e.slots = [])
    (h : Except.map some (convertElse recur tagName attrs cs childNodes componentName e) =
      Except.ok (some node)) : nodeOk node = true := by
  rcases hE : convertElse recur tagName attrs cs childNodes componentName e with er | jj
  · rw [hE] at h
    simp [Except.map] at h
  · rw [hE] at h
    simp only [Except.map] at h
    cases h
    exact convertElse_nodeOk recur tagName attrs cs childNodes componentName e _ hrec hslots hE

/-- Every node of a successfully converted tree satisfies the
children/slot invariant (proved by induction on the recursion budget;
the hereditary `nodeOk` covers the child nodes placed in the slots). -/
theorem convert_nodeOk (uaRes : Except Unit (String → String → String))
    (componentMappings : List ComponentMapping) (designTokens : List (String × String)) :
    ∀ (fuel : Nat) (parentCs : Option (List (String × String))) (dn : DomNode)
      (node : NodeJSON),
      convertHTMLToComposableJSON uaRes componentMappings designTokens fuel parentCs dn =
        Except.ok (some node) → nodeOk node = true := by
  intro fuel
  induction fuel with
  | zero =>
    intro pcs dn node h
    simp [convertHTMLToComposableJSON] at h
  | succ fuel ih =>
    intro pcs dn node h
    cases dn with
    | text s => simp [convertHTMLToComposableJSON] at h
    | elem tagName attrs cs childNodes =>
      simp only [convertHTMLToComposableJSON] at h
      by_cases hbr : jsToLower tagName = "br"
      · rw [if_pos hbr] at h
        simp at h
      · rw [if_neg hbr] at h
        have hrec : ∀ dn' node', convertHTMLToComposableJSON uaRes componentMappings designTokens
            fuel (some cs) dn' = .ok (some node') → nodeOk node' = true :=
          fun dn' node' hh => ih (some cs) dn' node' hh
        rcases hC : selectComponent (getAttr attrs "data-figma-id") componentMappings with _ | c
        · rw [hC] at h
          dsimp only at h
          refine map_some_convertElse_nodeOk _ _ _ _ _ _ _ _ hrec ?_ h
          rfl
        · rw [hC] at h
          dsimp only at h
          by_cases hid : c.nodeId ≠ ""
          · rw [if_pos hid] at h
            cases h
            apply nodeOk_empty_slots
            rw [handleCustomComponents_slots]
            rfl
          · rw [if_neg hid] at h
            refine map_some_convertElse_nodeOk _ _ _ _ _ _ _ _ hrec ?_ h
            rfl

/-- `handleButtonElement` never touches the children property. -/
theorem handleButtonElement_children (t : String) (j : NodeJSON) :
    findEntry (handleButtonElement t j).props "children" = findEntry j.props "children" := by
  unfold handleButtonElement
  rw [setProps_props, findEntry_setEntry_ne _ _ _ _ (by decide)]

/-- `handleLinkElement` never touches the children property. -/
theorem handleLinkElement_children (tag : String) (attrs : List (String × String))
    (kids : List DomNode) (j : NodeJSON) :
    findEntry (handleLinkElement tag attrs kids j).props "children" =
      findEntry j.props "children" := by
  unfold handleLinkElement
  by_cases ht : tag ≠ "A"
  · rw [if_pos ht]
  · rw [if_neg ht]
    rw [setProps_props]
    rcases getAttr attrs "rel" with _ | r <;> rcases getAttr attrs "target" with _ | t2 <;>
      dsimp only <;> (try split_ifs) <;>
      (repeat rw [findEntry_setEntry_ne _ _ _ _ (by decide)])

/-- `handleImageElement` never touches the children property. -/
theorem handleImageElement_children (tag : String) (attrs : List (String × String))
    (j : NodeJSON) :
    findEntry (handleImageElement tag attrs j).props "children" =
      findEntry j.props "children" := by
  unfold handleImageElement
  by_cases ht : tag ≠ "IMG"
  · rw [if_pos ht]
  · rw [if_neg ht]
    rw [setProps_props]
    repeat rw [findEntry_setEntry_ne _ _ _ _ (by decide)]

/-- A successful `handleVideoElement` leaves the props alone. -/
theorem handleVideoElement_props (tag : String) (kids : List DomNode)
    (j j' : NodeJSON) (h : handleVideoElement tag kids j = .ok j') :
    j'.props = j.props := by
  unfold handleVideoElement at h
  by_cases ht : tag ≠ "VIDEO"
  · rw [if_pos ht] at h
    cases h
    rfl
  · rw [if_neg ht] at h
    rcases hs : sourceElemsList kids with _ | ⟨sa, rest⟩
    · rw [hs] at h
      simp at h
    · rw [hs] at h
      dsimp only at h
      cases h
      rw [setAttrs_props]

/-- A childless element going through the non-custom body keeps an
empty slot map and gains no children property. -/
theorem convertElse_leaf (recur : DomNode → Except Unit (Option NodeJSON))
    (tagName : String) (attrs cs : List (String × String))
    (componentName : String) (e j : NodeJSON)
    (hslots : e.slots = []) (hprops : findEntry e.props "children" = none)
    (hE : convertElse recur tagName attrs cs [] componentName e = .ok j) :
    j.slots = [] ∧ findEntry j.props "children" = none := by
  have hj2slots : (if jsToLower tagName = "a" then
      handleLinkElement tagName attrs []
        (if jsToLower tagName = "button" then
          handleButtonElement (getFullTextContent attrs []) e
        else e)
    else
      if jsToLower tagName = "button" then
        handleButtonElement (getFullTextContent attrs []) e
      else e).slots = [] := by
    by_cases hb : jsToLower tagName = "button" <;>
      by_cases ha : jsToLower tagName = "a" <;>
      simp [ha, hb, handleLinkElement_slots, handleButtonElement_slots, hslots]
  have hj2children : findEntry (if jsToLower tagName = "a" then
      handleLinkElement tagName attrs []
        (if jsToLower tagName = "button" then
          handleButtonElement (getFullTextContent attrs []) e
        else e)
    else
      if jsToLower tagName = "button" then
        handleButtonElement (getFullTextContent attrs []) e
      else e).props "children" = none := by
    by_cases hb : jsToLower tagName = "button" <;>
      by_cases ha : jsToLower tagName = "a" <;>
      simp [ha, hb, handleLinkElement_children, handleButtonElement_children, hprops]
  simp only [convertElse] at hE
  split at hE
  · next hcond => exact absurd rfl hcond.2.2
  · split at hE
    · next hcond => simp at hcond
    · split at hE
      · next hcond => exact absurd rfl hcond.2
      · split at hE
        · -- svg terminal
          cases hE
          refine ⟨by rw [setProps_slots]; exact hslots, ?_⟩
          rw [setProps_props, findEntry_setEntry_ne _ _ _ _ (by decide)]
          exact hprops
        · split at hE
          · -- media terminal
            next hmedia =>
            have htag : tagName = "IMG" ∨ tagName = "VIDEO" := by
              simpa [MEDIA_TAGS] using hmedia
            rcases htag with hI | hV
            · subst hI
              rw [show ∀ (x : NodeJSON), handleVideoElement "IMG" [] x = Except.ok x from
                fun x => rfl] at hE
              dsimp only at hE
              cases hE
              constructor
              · rw [handleImageElement_slots]
                exact hj2slots
              · rw [handleImageElement_children]
                exact hj2children
            · subst hV
              rw [show ∀ (x : NodeJSON), handleVideoElement "VIDEO" [] x = Except.error () from
                fun x => rfl] at hE
              simp at hE
          · -- default branch with no children
            rw [show defaultLoop recur [] = Except.ok ([], false) from rfl] at hE
            dsimp only at hE
            rw [if_neg (fun hc => Bool.noConfusion hc.1)] at hE
            rw [show ∀ (x : NodeJSON), attachChildren x [] = x from fun x => rfl] at hE
            cases hE
            exact ⟨hj2slots, hj2children⟩

/-- Lifting `convertElse_leaf` through the `Except.map some` wrapper. -/
theorem map_some_convertElse_leaf (recur : DomNode → Except Unit (Option NodeJSON))
    (tagName : String) (attrs cs : List (String × String))
    (componentName : String) (e node : NodeJSON)
    (hslots : e.slots = []) (hprops : findEntry e.props "children" = none)
    (h : Except.map some (convertElse recur tagName attrs cs [] componentName e) =
      Except.ok (some node)) :
    node.slots = [] ∧ findEntry node.props "children" = none := by
  rcases hE : convertElse recur tagName attrs cs [] componentName e with er | jj
  · rw [hE] at h
    simp [Except.map] at h
  · rw [hE] at h
    simp only [Except.map] at h
    cases h
    exact convertElse_leaf recur tagName attrs cs componentName e _ hslots hprops hE

/-- Converting an element with no child nodes and no component mapping
applied yields a node with an empty slot map and no children property. -/
theorem convert_leaf (uaRes : Except Unit (String → String → String))
    (componentMappings : List ComponentMapping) (designTokens : List (String × String))
    (fuel : Nat) (parentCs : Option (List (String × String)))
    (tagName : String) (attrs cs : List (String × String)) (node : NodeJSON)
    (hsel : ∀ c, selectComponent (getAttr attrs "data-figma-id") componentMappings = some c →
      c.nodeId = "")
    (hbr : jsToLower tagName ≠ "br")
    (h : convertHTMLToComposableJSON uaRes componentMappings designTokens fuel parentCs
      (DomNode.elem tagName attrs cs []) = Except.ok (some node)) :
    node.slots = [] ∧ findEntry node.props "children" = none := by
  cases fuel with
  | zero => simp [convertHTMLToComposableJSON] at h
  | succ fuel =>
    simp only [convertHTMLToComposableJSON] at h
    rw [if_neg hbr] at h
    rcases hC : selectComponent (getAttr attrs "data-figma-id") componentMappings with _ | c
    · rw [hC] at h
      dsimp only at h
      refine map_some_convertElse_leaf _ _ _ _ _ _ _ ?_ ?_ h
      · rfl
      · rfl
    · rw [hC] at h
      dsimp only at h
      rw [if_neg (fun hd => hd (hsel c hC))] at h
      refine map_some_convertElse_leaf _ _ _ _ _ _ _ ?_ ?_ h
      · rfl
      · rfl

/-- C7: for every emitted Node, the node has child nodes (some slot
entry carries a nonempty child list) if and only if it has a non-empty
slots entry whose key is referenced by a props.children descriptor of
type slot — stated hereditarily over the whole emitted tree through
nodeOk; and in particular converting an element with no children and no
special handling (no matching component mapping, not a line-break tag)
yields a Node whose slots mapping is empty and which has no children
property. -/
theorem children_iff_referenced_slot :
    (∀ (uaRes : Except Unit (String → String → String))
      (componentMappings : List ComponentMapping) (designTokens : List (String × String))
      (fuel : Nat) (parentCs : Option (List (String × String))) (dn : DomNode)
      (node : NodeJSON),
      convertHTMLToComposableJSON uaRes componentMappings designTokens fuel parentCs dn =
        Except.ok (some node) → nodeOk node = true) ∧
    (∀ (uaRes : Except Unit (String → String → String))
      (componentMappings : List ComponentMapping) (designTokens : List (String × String))
      (fuel : Nat) (parentCs : Option (List (String × String)))
      (tagName : String) (attrs cs : List (String × String)) (node : NodeJSON),
      (∀ c, selectComponent (getAttr attrs "data-figma-id") componentMappings = some c →
        c.nodeId = "") →
      jsToLower tagName ≠ "br" →
      convertHTMLToComposableJSON uaRes componentMappings designTokens fuel parentCs
        (DomNode.elem tagName attrs cs []) = Except.ok (some node) →
      node.slots = [] ∧ findEntry node.props "children" = none) :=
  ⟨fun uaRes componentMappings designTokens => convert_nodeOk uaRes componentMappings designTokens,
   fun uaRes componentMappings designTokens fuel parentCs tagName attrs cs node hsel hbr h =>
     convert_leaf uaRes componentMappings designTokens fuel parentCs tagName attrs cs node
       hsel hbr h⟩

/-- C7 witness: the hereditary invariant evaluated on the converted tree
of a concrete SECTION element (its emitted node carries one nonempty
referenced slot), and the leaf round-trip on a childless P element
(empty slots, no children property). -/
theorem children_iff_slot_witness :
    nodeOk (NodeJSON.mk "box" [] [("children", PropVal.slotVal slotUid)]
      [(slotUid, [NodeJSON.mk "text" [] [("text", PropVal.stringVal (some "a"))] [] ⟨[], [], []⟩])]
      ⟨[], [], []⟩) = true ∧
    ((NodeJSON.mk "text" [] [] [] ⟨[("display", "inline-block")], [], []⟩).slots = [] ∧
      findEntry (NodeJSON.mk "text" [] [] []
        ⟨[("display", "inline-block")], [], []⟩).props "children" = none) :=
  ⟨children_iff_referenced_slot.1 (Except.ok (fun _ _ => "")) [] [] 10 none
      (DomNode.elem "SECTION" [] [] [DomNode.text "hello", DomNode.elem "BR" [] [] [],
        DomNode.elem "SPAN" [] [] [DomNode.text "a"]])
      (NodeJSON.mk "box" [] [("children", PropVal.slotVal slotUid)]
        [(slotUid, [NodeJSON.mk "text" [] [("text", PropVal.stringVal (some "a"))] [] ⟨[], [], []⟩])]
        ⟨[], [], []⟩) rfl,
   children_iff_referenced_slot.2 (Except.ok (fun _ _ => "")) [] [] 2 none "P" [] []
      (NodeJSON.mk "text" [] [] [] ⟨[("display", "inline-block")], [], []⟩)
      (fun c hc => nomatch hc) (by decide) rfl⟩
